import Mathlib

/-!
Verification of the ttfl-tracker backend core against its specification.

The Python sources under `backend/` are shallowly embedded below:
pure functions become Lean functions, the SQLAlchemy session becomes an
explicit record of row lists, Python dicts become either association-list
folds or functions built by overwriting folds (later writes win, as in a
Python dict), exceptions become `Option`/explicit failure flags, and
`time.sleep` calls are logged into an explicit list of delays.
Dates are abstracted to integers (a day number); `float` arithmetic is
modelled exactly over `ℚ`, with Python `round(x, 1)` rendered as
round-half-to-even at one decimal.
-/

namespace TTFL

/-! ### services/ttfl.py -/

/-- A box-score line as passed around as a Python dict.  Every stat field is
optional: a missing key (`dict.get` default) and a `None` value both behave
as `0` through the `or 0` idiom in the source. -/
structure BoxDict where
  PTS : Option Int
  REB : Option Int
  AST : Option Int
  STL : Option Int
  BLK : Option Int
  TOV : Option Int
  FGM : Option Int
  FGA : Option Int
  FG3M : Option Int
  FG3A : Option Int
  FTM : Option Int
  FTA : Option Int
  MIN : Option Int
deriving DecidableEq, Repr

/-- `box_score.get(key, 0) or 0`: for integer values `x or 0` is `0` when `x`
is `None` or `0`, and `x` otherwise — i.e. exactly `Option.getD 0`. -/
def orZero (x : Option Int) : Int :=
  match x with
  | none => 0
  | some v => v

/-- `calculate_ttfl_score` from `services/ttfl.py`. -/
def calculate_ttfl_score (box_score : BoxDict) : Int :=
  let pts := orZero box_score.PTS
  let reb := orZero box_score.REB
  let ast := orZero box_score.AST
  let stl := orZero box_score.STL
  let blk := orZero box_score.BLK
  let fgm := orZero box_score.FGM
  let fg3m := orZero box_score.FG3M
  let ftm := orZero box_score.FTM
  let positive := pts + reb + ast + stl + blk + fgm + fg3m + ftm
  let tov := orZero box_score.TOV
  let fga := orZero box_score.FGA
  let fg_missed := fga - fgm
  let fg3a := orZero box_score.FG3A
  let fg3_missed := fg3a - fg3m
  let fta := orZero box_score.FTA
  let ft_missed := fta - ftm
  let negative := tov + fg_missed + fg3_missed + ft_missed
  positive - negative

/-- Round a rational to the nearest integer, ties to even — the rounding of
Python's `round` (modelled exactly over `ℚ`). -/
def roundHalfEven (q : ℚ) : Int :=
  let f : Int := Int.floor q
  if q - f < 1/2 then f
  else if (1:ℚ)/2 < q - f then f + 1
  else if f % 2 = 0 then f else f + 1

/-- Python `round(x, 1)`: one decimal place, ties to even. -/
def round1 (q : ℚ) : ℚ :=
  (roundHalfEven (q * 10) : ℚ) / 10

/-- `calculate_average_ttfl_score` from `services/ttfl.py`. -/
def calculate_average_ttfl_score (games : List BoxDict) : ℚ :=
  if games.isEmpty then 0
  else
    let played_games := games.filter (fun g => 0 < orZero g.MIN)
    if played_games.isEmpty then 0
    else
      let total_score := ((played_games.map calculate_ttfl_score).foldl (· + ·) 0 : Int)
      round1 ((total_score : ℚ) / (played_games.length : ℚ))

/-- The §8 end-to-end spec example box score. -/
def exampleBox49 : BoxDict :=
  ⟨some 30, some 10, some 5, some 2, some 1, some 3, some 12, some 20,
   some 3, some 8, some 3, some 4, none⟩

/-- A line with made > attempted field goals (FGM=2, FGA=0): the negative
"missed" count must not be floored at zero. -/
def negMissBox : BoxDict :=
  ⟨none, none, none, none, none, none, some 2, some 0,
   none, none, none, none, none⟩

/-! ### services/player_stats.py -/

/-- A `TTFLScore` row joined (on `game_id`) with its game's `game_date`,
as seen by the single query in `batch_calculate_averages`.  `game_date` is a
day number. -/
structure SJRow where
  player_id : Nat
  ttfl_score : Option Int
  minutes : Int
  game_date : Int
deriving DecidableEq, Repr

/-- One tuple of the query's result set. -/
structure SRow where
  player_id : Nat
  score : Int
  game_date : Int
deriving DecidableEq, Repr

/-- The query's WHERE clause: `player_id IN ids`, `ttfl_score IS NOT NULL`,
`minutes > 0`. -/
def queryKeep (ids : List Nat) (r : SJRow) : Bool :=
  ids.contains r.player_id && r.ttfl_score.isSome && decide (0 < r.minutes)

/-- `ORDER BY player_id, game_date DESC` as a boolean lexicographic key. -/
def srowLE (a b : SRow) : Bool :=
  decide (a.player_id < b.player_id) ||
    (a.player_id == b.player_id && decide (b.game_date ≤ a.game_date))

/-- Insert into a list sorted by `srowLE` (stable insertion sort step). -/
def insertSorted (r : SRow) : List SRow → List SRow
  | [] => [r]
  | h :: t => if srowLE r h then r :: h :: t else h :: insertSorted r t

/-- Deterministic rendering of the query's ORDER BY (insertion sort). -/
def sortRows (l : List SRow) : List SRow := l.foldr insertSorted []

/-- The result set of the one bulk query in `batch_calculate_averages`. -/
def scoresData (ids : List Nat) (table : List SJRow) : List SRow :=
  sortRows ((table.filter (queryKeep ids)).map
    (fun r => ⟨r.player_id, orZero r.ttfl_score, r.game_date⟩))

/-- The `defaultdict(list)` grouping loop: appends each result tuple to its
player's list, in stream order. -/
def groupScores (rows : List SRow) : Nat → List (Int × Int) :=
  rows.foldl
    (fun m r => fun pid =>
      if pid = r.player_id then m pid ++ [(r.score, r.game_date)] else m pid)
    (fun _ => [])

/-- The three rolling averages returned per player. -/
structure Averages where
  avg_ttfl : ℚ
  avg_ttfl_l10 : ℚ
  avg_ttfl_l30d : ℚ
deriving DecidableEq, Repr

/-- `batch_calculate_averages` from `services/player_stats.py`; `today` is
the day number of `date.today()`, the result dict is rendered as the list of
key/value pairs produced by the final per-id loop. -/
def batch_calculate_averages (today : Int) (table : List SJRow)
    (player_ids : List Nat) : List (Nat × Averages) :=
  if player_ids.isEmpty then []
  else
    let cutoff_30d := today - 30
    let scores_data := scoresData player_ids table
    let player_scores := groupScores scores_data
    player_ids.map (fun pid =>
      let scores := player_scores pid
      let last_15 := (scores.take 15).map (fun s => s.1)
      let avg_ttfl :=
        if last_15.isEmpty then 0
        else round1 ((last_15.sum : ℚ) / (last_15.length : ℚ))
      let last_10 := (scores.take 10).map (fun s => s.1)
      let avg_ttfl_l10 :=
        if last_10.isEmpty then 0
        else round1 ((last_10.sum : ℚ) / (last_10.length : ℚ))
      let last_30d := (scores.filter (fun s => decide (cutoff_30d ≤ s.2))).map
        (fun s => s.1)
      let avg_ttfl_l30d :=
        if last_30d.isEmpty then 0
        else round1 ((last_30d.sum : ℚ) / (last_30d.length : ℚ))
      (pid, ⟨avg_ttfl, avg_ttfl_l10, avg_ttfl_l30d⟩))

/-- Spec-side "mean rounded to one decimal, `0.0` if empty". -/
def specAvg (l : List Int) : ℚ :=
  if l.isEmpty then 0 else round1 ((l.sum : ℚ) / (l.length : ℚ))

/-- The query's rows for one player, in result-set order (game date
descending): the player's score history as the spec describes it. -/
def playerHistory (ids : List Nat) (table : List SJRow) (pid : Nat) :
    List SRow :=
  (scoresData ids table).filter (fun r => r.player_id == pid)

/-! ### Database rows (models/database.py, as the core manipulates them) -/

/-- A `Team` row (only the fields the verified core reads). -/
structure TeamRow where
  id : Nat
  full_name : String
deriving DecidableEq, Repr

/-- A `Player` row. -/
structure PlayerRow where
  id : Nat
  nba_player_id : Nat
  name : String
  team_id : Nat
  is_active : Bool
  injury_status : Option String
  injury_return_date : Option String
  injury_details : Option String
deriving DecidableEq, Repr

/-- A `Game` row; `game_date` is a day number, `status` the stored string. -/
structure GameRow where
  id : Nat
  nba_game_id : Nat
  game_date : Int
  status : String
  home_team_id : Nat
  away_team_id : Nat
  home_score : Option Int
  away_score : Option Int
deriving DecidableEq, Repr

/-- A `TTFLScore` row. -/
structure ScoreRow where
  player_id : Nat
  game_id : Nat
  ttfl_score : Int
  minutes : Int
deriving DecidableEq, Repr

/-- The durable state the daily-update phases read and write. -/
structure Db where
  players : List PlayerRow
  games : List GameRow
  scores : List ScoreRow
deriving DecidableEq, Repr

/-! ### scripts/daily_update.py, phase 1: update_game_statuses -/

/-- One row of the fetched `season_games` dataframe.  The score columns are
`Option Int`: `none` covers both `pd.notna` failing and the `int()`
conversion raising. -/
structure SchedRow where
  gameId : Nat
  gameStatus : Int
  homeTeam_score : Option Int
  awayTeam_score : Option Int
deriving DecidableEq, Repr

/-- `gameStatus` → stored status string (3 → final, 2 → live, else
scheduled). -/
def schedStatus (gameStatus : Int) : String :=
  if gameStatus = 3 then "final" else if gameStatus = 2 then "live" else "scheduled"

/-- One `schedule_data` entry built from a dataframe row: scores are kept
only when the status is final. -/
def schedInfoOf (row : SchedRow) : SchedRow × String :=
  (row, schedStatus row.gameStatus)

/-- The `schedule_data` dict keyed by `gameId` (a later row with the same id
overwrites an earlier one, as in a Python dict). -/
def buildSchedule (rows : List SchedRow) : Nat → Option (String × Option Int × Option Int) :=
  rows.foldl
    (fun m row => fun gid =>
      if gid = row.gameId then
        some (schedStatus row.gameStatus,
          (if schedStatus row.gameStatus = "final" then row.homeTeam_score else none),
          (if schedStatus row.gameStatus = "final" then row.awayTeam_score else none))
      else m gid)
    (fun _ => none)

/-- The loop body of `update_game_statuses` for one stored game.  The query
restricts to non-final games; that filter is rendered as the leading guard,
so final rows map to themselves. -/
def updateOneGame (sched : Nat → Option (String × Option Int × Option Int))
    (g : GameRow) : GameRow :=
  if g.status = "final" then g
  else
    match sched g.nba_game_id with
    | none => g
    | some (new_status, new_home_score, new_away_score) =>
      let g1 := if g.status ≠ new_status then { g with status := new_status } else g
      if new_status = "final" ∧
          (g.home_score ≠ new_home_score ∨ g.away_score ≠ new_away_score) then
        { g1 with home_score := new_home_score, away_score := new_away_score }
      else g1

/-- Whether the loop counts a stored game as updated. -/
def gameNeedsUpdate (sched : Nat → Option (String × Option Int × Option Int))
    (g : GameRow) : Bool :=
  if g.status = "final" then false
  else
    match sched g.nba_game_id with
    | none => false
    | some (new_status, new_home_score, new_away_score) =>
      decide (g.status ≠ new_status) ||
        decide (new_status = "final" ∧
          (g.home_score ≠ new_home_score ∨ g.away_score ≠ new_away_score))

/-- `update_game_statuses` given the fetched schedule rows: the stored game
table afterwards, and `updated_count`. -/
def update_game_statuses (rows : List SchedRow) (games : List GameRow) :
    List GameRow × Nat :=
  let sched := buildSchedule rows
  (games.map (updateOneGame sched), (games.filter (gameNeedsUpdate sched)).length)

/-! ### scripts/daily_update.py, phase 2: populate_ttfl_scores -/

/-- One line of `get_game_box_scores` output. -/
structure BoxLine where
  nba_player_id : Nat
  minutes : Int
  stats : BoxDict
deriving DecidableEq, Repr

/-- One entry of `get_player_stats` output; `game_date` is `none` when the
`GAME_DATE` string is missing or `strptime` raises `ValueError`. -/
structure LogLine where
  game_date : Option Int
  stats : BoxDict
deriving DecidableEq, Repr

/-- The external provider as phase 2 sees it.  Both fetchers catch their own
exceptions and return an empty list, so `[]` stands for "error or no
data". -/
structure Ext where
  box : Nat → List BoxLine
  logs : Nat → List LogLine

/-- `player_map = {p.nba_player_id: p.id}`. -/
def playerMap (players : List PlayerRow) : Nat → Option Nat :=
  players.foldl
    (fun m p => fun nid => if nid = p.nba_player_id then some p.id else m nid)
    (fun _ => none)

/-- Whether any stored score row references the game (`games_with_scores`). -/
def hasScoreFor (scores : List ScoreRow) (gid : Nat) : Bool :=
  scores.any (fun r => r.game_id == gid)

/-- The insert-guard query: a `TTFLScore` row for this (player, game) pair
already exists (pending inserts included, as the session autoflushes). -/
def pairExists (scores : List ScoreRow) (pid gid : Nat) : Bool :=
  scores.any (fun r => r.player_id == pid && r.game_id == gid)

/-- Stable insertion step for `ORDER BY game_date`. -/
def insertGameByDate (g : GameRow) : List GameRow → List GameRow
  | [] => [g]
  | h :: t => if g.game_date < h.game_date then g :: h :: t else h :: insertGameByDate g t

/-- Deterministic rendering of `ORDER BY Game.game_date`. -/
def sortGamesByDate (l : List GameRow) : List GameRow :=
  l.foldr insertGameByDate []

/-- `games_needing_scores`: final games on or after the season start with no
score row at all. -/
def needingGames (seasonStart : Int) (db : Db) : List GameRow :=
  sortGamesByDate (db.games.filter (fun g =>
    g.status == "final" && decide (seasonStart ≤ g.game_date) &&
      !(hasScoreFor db.scores g.id)))

/-- One box-score line of phase 2a: look the player up, then insert unless
the pair exists.  `if not player_id: continue` is Python truthiness, so an
internal id of 0 is also skipped. -/
def processBoxLine (pmap : Nat → Option Nat) (gid : Nat)
    (scores : List ScoreRow) (line : BoxLine) : List ScoreRow :=
  match pmap line.nba_player_id with
  | none => scores
  | some pid =>
    if pid = 0 then scores
    else if pairExists scores pid gid then scores
    else scores ++ [⟨pid, gid, calculate_ttfl_score line.stats, line.minutes⟩]

/-- Phase 2a over the needing games: returns the score table (stored plus
pending) and `games_failed` in processing order. -/
def boxPhase (ext : Ext) (pmap : Nat → Option Nat) :
    List GameRow → List ScoreRow → List ScoreRow × List GameRow
  | [], scores => (scores, [])
  | g :: rest, scores =>
    let box_scores := ext.box g.nba_game_id
    if box_scores.isEmpty then
      let r := boxPhase ext pmap rest scores
      (r.1, g :: r.2)
    else
      boxPhase ext pmap rest (box_scores.foldl (processBoxLine pmap g.id) scores)

/-- `game_lookup`: both (date, team) keys of every failed game, a later
assignment overwriting an earlier one. -/
def gameLookup (failed : List GameRow) : Int × Nat → Option GameRow :=
  failed.foldl
    (fun m g => fun k =>
      if k = (g.game_date, g.home_team_id) ∨ k = (g.game_date, g.away_team_id)
      then some g else m k)
    (fun _ => none)

/-- One player-log entry of phase 2b: parse the date, match it to a failed
game by (date, team), then insert with minutes 0 unless the pair exists. -/
def processLog (seasonStart : Int) (lookup : Int × Nat → Option GameRow)
    (p : PlayerRow) (scores : List ScoreRow) (log : LogLine) : List ScoreRow :=
  match log.game_date with
  | none => scores
  | some d =>
    if d < seasonStart then scores
    else
      match lookup (d, p.team_id) with
      | none => scores
      | some g =>
        if pairExists scores p.id g.id then scores
        else scores ++ [⟨p.id, g.id, calculate_ttfl_score log.stats, 0⟩]

/-- Phase 2b: for every active player of a team involved in a failed game,
run that player's recent log entries through `processLog`. -/
def fallbackPhase (ext : Ext) (seasonStart : Int) (players : List PlayerRow)
    (failed : List GameRow) (scores : List ScoreRow) : List ScoreRow :=
  if failed.isEmpty then scores
  else
    let lookup := gameLookup failed
    let team_ids := failed.foldl (fun s g => s ++ [g.home_team_id, g.away_team_id]) []
    let relevant_players :=
      players.filter (fun p => team_ids.contains p.team_id && p.is_active)
    relevant_players.foldl
      (fun sc p => (ext.logs p.nba_player_id).foldl (processLog seasonStart lookup p) sc)
      scores

/-- `populate_ttfl_scores` (dry_run = False): phase 2a then 2b; only the
score table changes.  `seasonStart` is the day number of
`regular_season_start`. -/
def populate_ttfl_scores (ext : Ext) (seasonStart : Int) (db : Db) : Db :=
  let pmap := playerMap db.players
  let needing := needingGames seasonStart db
  let r := boxPhase ext pmap needing db.scores
  { db with scores := fallbackPhase ext seasonStart db.players r.2 r.1 }

/-! ### services/injuries.py -/

/-- One scraped injury record (the scraped-injury boundary's output
contract). -/
structure InjuryRec where
  name : String
  team : String
  status : String
  return_date : String
  details : String
deriving DecidableEq, Repr

/-- `injury_by_name_team` dict keyed by normalized (name, team); later
records overwrite earlier ones. -/
def injuryByNameTeam (norm : String → String) (injuries : List InjuryRec) :
    String × String → Option InjuryRec :=
  injuries.foldl
    (fun m inj => fun k => if k = (norm inj.name, norm inj.team) then some inj else m k)
    (fun _ => none)

/-- `injury_by_name` fallback dict keyed by normalized name alone. -/
def injuryByName (norm : String → String) (injuries : List InjuryRec) :
    String → Option InjuryRec :=
  injuries.foldl
    (fun m inj => fun k => if k = norm inj.name then some inj else m k)
    (fun _ => none)

/-- `teams = {t.id: t}` lookup. -/
def teamsById (teams : List TeamRow) : Nat → Option TeamRow :=
  teams.foldl (fun m t => fun i => if i = t.id then some t else m i) (fun _ => none)

/-- The player's normalized team key (empty when the team id is unknown).
`normalize_name` itself (Unicode NFKD, accent stripping, lower-casing) is
abstracted as the `norm` parameter. -/
def playerTeamKey (norm : String → String) (tmap : Nat → Option TeamRow)
    (p : PlayerRow) : String :=
  match tmap p.team_id with
  | some t => norm t.full_name
  | none => ""

/-- The match step for one player: precise (name, team) key first, then
name-only; also reports the key recorded into `matched_injury_keys`. -/
def matchInjury (norm : String → String)
    (byNT : String × String → Option InjuryRec)
    (byN : String → Option InjuryRec) (tmap : Nat → Option TeamRow)
    (p : PlayerRow) : Option (InjuryRec × (String × String)) :=
  let nk := norm p.name
  let tk := playerTeamKey norm tmap p
  match byNT (nk, tk) with
  | some inj => some (inj, (nk, tk))
  | none =>
    match byN nk with
    | some inj => some (inj, (norm inj.name, norm inj.team))
    | none => none

/-- On a match: overwrite the three status fields only if one differs
(details equal to the empty string are stored as `None`); the flag reports
whether the row was counted as updated. -/
def applyInjury (inj : InjuryRec) (p : PlayerRow) : PlayerRow × Bool :=
  let new_details : Option String := if inj.details = "" then none else some inj.details
  if p.injury_status ≠ some inj.status ∨ p.injury_return_date ≠ some inj.return_date ∨
      p.injury_details ≠ new_details then
    ({ p with injury_status := some inj.status,
              injury_return_date := some inj.return_date,
              injury_details := new_details }, true)
  else (p, false)

/-- The per-player loop body of `update_player_injuries`; it reads and
writes only the current player row. -/
def updateOnePlayer (norm : String → String)
    (byNT : String × String → Option InjuryRec)
    (byN : String → Option InjuryRec) (tmap : Nat → Option TeamRow)
    (p : PlayerRow) : PlayerRow :=
  match matchInjury norm byNT byN tmap p with
  | some (inj, _) => (applyInjury inj p).1
  | none =>
    if p.injury_status ≠ none then
      { p with injury_status := none, injury_return_date := none, injury_details := none }
    else p

/-- Result of the injury refresh: the player table afterwards plus the
returned counts. -/
structure InjuryResult where
  players : List PlayerRow
  updated : Nat
  cleared : Nat
  not_found : List String
deriving DecidableEq, Repr

/-- `update_player_injuries` given the scraped list.  Since the Python loop
body touches only the current player and the counters, it is rendered as a
map over players, two counts, and the `matched_injury_keys` accumulation. -/
def update_player_injuries (norm : String → String) (teams : List TeamRow)
    (injuries : List InjuryRec) (players : List PlayerRow) : InjuryResult :=
  if injuries.isEmpty then ⟨players, 0, 0, []⟩
  else
    let byNT := injuryByNameTeam norm injuries
    let byN := injuryByName norm injuries
    let tmap := teamsById teams
    let matched_keys := players.foldl
      (fun ks p =>
        match matchInjury norm byNT byN tmap p with
        | some (_, k) => ks ++ [k]
        | none => ks) []
    let players2 := players.map (updateOnePlayer norm byNT byN tmap)
    let updated := players.countP (fun p =>
      match matchInjury norm byNT byN tmap p with
      | some (inj, _) => (applyInjury inj p).2
      | none => false)
    let cleared := players.countP (fun p =>
      (matchInjury norm byNT byN tmap p).isNone && p.injury_status.isSome)
    let not_found := (injuries.filter (fun inj =>
      !(matched_keys.contains (norm inj.name, norm inj.team)))).map (fun inj => inj.name)
    ⟨players2, updated, cleared, not_found⟩

/-! ### services/cache.py -/

/-- The `AppCache` indexes, each a Python dict rendered as a total lookup
function (`games_by_date`/`players_by_team` default to `[]` through
`.get(key, [])`). -/
structure Cache where
  games_by_date : Int → List GameRow
  teams_by_id : Nat → Option TeamRow
  players_by_id : Nat → Option PlayerRow
  players_by_nba_id : Nat → Option PlayerRow
  players_by_team : Nat → List PlayerRow
  loaded : Bool

/-- The three bulk reads `load_schedule` issues, in order; `none` means the
query raised. -/
structure CacheDb where
  teamsQ : Option (List TeamRow)
  gamesQ : Option (List GameRow)
  playersQ : Option (List PlayerRow)

/-- `{p.id: p for p in players}`. -/
def playersById (players : List PlayerRow) : Nat → Option PlayerRow :=
  players.foldl (fun m p => fun i => if i = p.id then some p else m i) (fun _ => none)

/-- `{p.nba_player_id: p for p in players}`. -/
def playersByNbaId (players : List PlayerRow) : Nat → Option PlayerRow :=
  players.foldl (fun m p => fun i => if i = p.nba_player_id then some p else m i)
    (fun _ => none)

/-- The `games_by_date` grouping loop. -/
def groupGamesByDate (games : List GameRow) : Int → List GameRow :=
  games.foldl
    (fun m g => fun d => if d = g.game_date then m d ++ [g] else m d)
    (fun _ => [])

/-- The `players_by_team` grouping loop. -/
def groupPlayersByTeam (players : List PlayerRow) : Nat → List PlayerRow :=
  players.foldl
    (fun m p => fun t => if t = p.team_id then m t ++ [p] else m t)
    (fun _ => [])

/-- `AppCache.load_schedule`: the three bulk reads in source order, each
index assigned as soon as its read succeeds; a raising read aborts there
(flag `false`), leaving every index assigned so far in place. -/
def load_schedule (db : CacheDb) (c : Cache) : Cache × Bool :=
  match db.teamsQ with
  | none => (c, false)
  | some teams =>
    let c1 := { c with teams_by_id := teamsById teams }
    match db.gamesQ with
    | none => (c1, false)
    | some games =>
      let c2 := { c1 with games_by_date := groupGamesByDate games }
      match db.playersQ with
      | none => (c2, false)
      | some players =>
        ({ c2 with
            players_by_id := playersById players,
            players_by_nba_id := playersByNbaId players,
            players_by_team := groupPlayersByTeam players,
            loaded := true }, true)

/-- `AppCache.get_team`. -/
def get_team (c : Cache) (team_id : Nat) : Option TeamRow :=
  c.teams_by_id team_id

/-- `AppCache.get_games_for_date`. -/
def get_games_for_date (c : Cache) (target_date : Int) : List GameRow :=
  c.games_by_date target_date

/-- `AppCache.get_player_by_id`. -/
def get_player_by_id (c : Cache) (player_id : Nat) : Option PlayerRow :=
  c.players_by_id player_id

/-- `AppCache.get_player_by_nba_id`. -/
def get_player_by_nba_id (c : Cache) (nba_player_id : Nat) : Option PlayerRow :=
  c.players_by_nba_id nba_player_id

/-! ### The retry policies (scripts/daily_update.py and services/nba_api.py) -/

/-- Result of one attempt of a wrapped external call. -/
inductive CallResult (α : Type) where
  | ok (val : α)
  | err (msg : String)
deriving DecidableEq, Repr

/-- What the `retry_on_timeout` wrapper does in the end: return a value,
re-raise a failure, or hit `raise last_exception` with `last_exception`
still `None` (only reachable with `max_retries = 0`, where Python raises a
`TypeError`). -/
inductive RetryOutcome (α : Type) where
  | ok (val : α)
  | err (msg : String)
  | reraiseNone
deriving DecidableEq, Repr

/-- `str(e).lower()` as a character list (rendered over `List Char` so the
kernel can evaluate it on literals). -/
def strLower (s : String) : List Char := s.toList.map Char.toLower

/-- Substring test (`needle in haystack`). -/
def lstContains (s sub : List Char) : Bool :=
  (List.range (s.length + 1)).any (fun i => sub.isPrefixOf (s.drop i))

/-- The timeout classification both retry loops apply to a failure
message. -/
def isTimeoutMsg (msg : String) : Bool :=
  lstContains (strLower msg) (("timeout").toList) ||
    lstContains (strLower msg) (("timed out").toList)

/-- The `for attempt in range(max_retries)` loop of `retry_on_timeout`,
with the remaining iteration count as fuel; `calls i` is what the wrapped
function does on attempt `i`, and the returned list holds the `time.sleep`
delays in order. -/
def retryAux {α : Type} (base_delay : ℚ) (calls : Nat → CallResult α)
    (attempt : Nat) (last : Option String) : Nat → RetryOutcome α × List ℚ
  | 0 => ((match last with | some m => .err m | none => .reraiseNone), [])
  | r + 1 =>
    match calls attempt with
    | .ok a => (.ok a, [])
    | .err m =>
      if isTimeoutMsg m then
        let rest := retryAux base_delay calls (attempt + 1) (some m) r
        (rest.1, base_delay * 2 ^ attempt :: rest.2)
      else (.err m, [])

/-- The `retry_on_timeout(max_retries, base_delay)` decorator applied to a
call. -/
def retry_on_timeout {α : Type} (max_retries : Nat) (base_delay : ℚ)
    (calls : Nat → CallResult α) : RetryOutcome α × List ℚ :=
  retryAux base_delay calls 0 none max_retries

/-- The inline retry loop shared by `get_player_stats` and
`get_game_box_scores`: on a timeout that is not the last attempt, sleep
`2 ** attempt` and retry; on any other failure, or on the last attempt,
print and return the empty result `empty`. -/
def nbaRetryAux {α : Type} (empty : α) (calls : Nat → CallResult α)
    (max_retries : Nat) (attempt : Nat) : Nat → α × List ℚ
  | 0 => (empty, [])
  | r + 1 =>
    match calls attempt with
    | .ok v => (v, [])
    | .err m =>
      if isTimeoutMsg m && !(attempt + 1 == max_retries) then
        let rest := nbaRetryAux empty calls max_retries (attempt + 1) r
        (rest.1, (2 : ℚ) ^ attempt :: rest.2)
      else (empty, [])

/-- The nba_api retry loop entered at attempt 0. -/
def nbaRetryLoop {α : Type} (empty : α) (calls : Nat → CallResult α)
    (max_retries : Nat) : α × List ℚ :=
  nbaRetryAux empty calls max_retries 0 max_retries

/-! ### Concrete inputs used by counterexamples and witnesses -/

/-- A box dict with every stat absent. -/
def zeroBox : BoxDict :=
  ⟨none, none, none, none, none, none, none, none, none, none, none, none, none⟩

/-- C1 scenario: the prior Ready snapshot holds team 1. -/
def cexTeamA : TeamRow := ⟨1, "Alpha"⟩

/-- C1 scenario: the fresh teams read returns team 2 instead. -/
def cexTeamB : TeamRow := ⟨2, "Beta"⟩

/-- C1 scenario: a fully loaded (Ready) cache snapshot. -/
def cexCacheReady : Cache where
  games_by_date := fun _ => []
  teams_by_id := fun i => if i = 1 then some cexTeamA else none
  players_by_id := fun _ => none
  players_by_nba_id := fun _ => none
  players_by_team := fun _ => []
  loaded := true

/-- C1 scenario: the teams read succeeds with fresh data, then the games
bulk read raises. -/
def cexCacheDbFail : CacheDb := ⟨some [cexTeamB], none, some []⟩

/-- C4 scenario: one active player on team 7. -/
def cexPlayer : PlayerRow := ⟨1, 101, "John Doe", 7, true, none, none, none⟩

/-- C4 scenario: two final games on day 50 both involving team 7, neither
with any score row. -/
def cexGame1 : GameRow := ⟨1, 11, 50, "final", 7, 8, none, none⟩

/-- C4 scenario: the second game sharing day 50 and team 7. -/
def cexGame2 : GameRow := ⟨2, 12, 50, "final", 7, 9, none, none⟩

/-- C4 scenario: stored state before the backfill. -/
def cexDb : Db := ⟨[cexPlayer], [cexGame1, cexGame2], []⟩

/-- C4 scenario: every box-score fetch fails, and the player's log holds a
single entry on day 50 — it matches both games' (date, team) key. -/
def cexExt : Ext where
  box := fun _ => []
  logs := fun nid => if nid = 101 then [⟨some 50, zeroBox⟩] else []

/-- C7 counterexample: a player carrying an injury status. -/
def cexInjPlayer : PlayerRow :=
  ⟨1, 101, "John Doe", 7, true, some ("Out"), some ("Jan 15"), none⟩

/-- attempted ≥ made for each shot type. -/
def ValidShots (b : BoxDict) : Prop :=
  orZero b.FGM ≤ orZero b.FGA ∧ orZero b.FG3M ≤ orZero b.FG3A ∧
    orZero b.FTM ≤ orZero b.FTA

/-- `zeroBox` with one point scored (C9 witness input). -/
def onePtsBox : BoxDict :=
  ⟨some 1, none, none, none, none, none, none, none, none, none, none, none, none⟩

/-- No two distinct stored games share a (date, team) key — a team plays at
most one stored game per day (true of real schedules; the fallback
matching of phase 2b relies on it). -/
def NoDupTeamDate (games : List GameRow) : Prop :=
  ∀ g ∈ games, ∀ g2 ∈ games, g.game_date = g2.game_date →
    ∀ t : Nat, (g.home_team_id = t ∨ g.away_team_id = t) →
      (g2.home_team_id = t ∨ g2.away_team_id = t) → g = g2

/-! ### Theorems -/

/-- The composite score as a closed formula over the defaulted fields. -/
theorem score_eq (b : BoxDict) :
    calculate_ttfl_score b =
      (orZero b.PTS + orZero b.REB + orZero b.AST + orZero b.STL + orZero b.BLK +
       orZero b.FGM + orZero b.FG3M + orZero b.FTM) -
      (orZero b.TOV + (orZero b.FGA - orZero b.FGM) +
       (orZero b.FG3A - orZero b.FG3M) + (orZero b.FTA - orZero b.FTM)) := rfl

/-- C2: for every box-score line with non-negative stat fields (absent
fields treated as 0), `calculate_ttfl_score` returns
(PTS+REB+AST+STL+BLK+FGM+FG3M+FTM) −
(TOV + (FGA−FGM) + (FG3A−FG3M) + (FTA−FTM)); on the spec's end-to-end
example it returns 49; and a negative missed count (attempted < made) is
not floored at zero — with only FGM=2, FGA=0 the score is 4, not 2. -/
theorem C2_score_formula :
    (∀ b : BoxDict,
      0 ≤ orZero b.PTS → 0 ≤ orZero b.REB → 0 ≤ orZero b.AST → 0 ≤ orZero b.STL →
      0 ≤ orZero b.BLK → 0 ≤ orZero b.TOV → 0 ≤ orZero b.FGM → 0 ≤ orZero b.FGA →
      0 ≤ orZero b.FG3M → 0 ≤ orZero b.FG3A → 0 ≤ orZero b.FTM → 0 ≤ orZero b.FTA →
      calculate_ttfl_score b =
        (orZero b.PTS + orZero b.REB + orZero b.AST + orZero b.STL + orZero b.BLK +
         orZero b.FGM + orZero b.FG3M + orZero b.FTM) -
        (orZero b.TOV + (orZero b.FGA - orZero b.FGM) +
         (orZero b.FG3A - orZero b.FG3M) + (orZero b.FTA - orZero b.FTM))) ∧
    calculate_ttfl_score exampleBox49 = 49 ∧
    calculate_ttfl_score negMissBox = 4 :=
  ⟨fun b _ _ _ _ _ _ _ _ _ _ _ _ => score_eq b, by decide, by decide⟩

/-- C2 witness: the formula instantiated at the spec's end-to-end example
line, every hypothesis discharged by evaluation. -/
theorem C2_score_formula_witness :
    calculate_ttfl_score exampleBox49 =
      (orZero exampleBox49.PTS + orZero exampleBox49.REB + orZero exampleBox49.AST +
       orZero exampleBox49.STL + orZero exampleBox49.BLK + orZero exampleBox49.FGM +
       orZero exampleBox49.FG3M + orZero exampleBox49.FTM) -
      (orZero exampleBox49.TOV + (orZero exampleBox49.FGA - orZero exampleBox49.FGM) +
       (orZero exampleBox49.FG3A - orZero exampleBox49.FG3M) +
       (orZero exampleBox49.FTA - orZero exampleBox49.FTM)) :=
  C2_score_formula.1 exampleBox49 (by decide) (by decide) (by decide) (by decide)
    (by decide) (by decide) (by decide) (by decide) (by decide) (by decide)
    (by decide) (by decide)

/-- C9: over box-score lines with attempted ≥ made for each shot type that
differ only in the stated field, `calculate_ttfl_score` is monotone
non-decreasing in PTS, REB, AST, STL, BLK and each makes field (attempts
fixed), and monotone non-increasing in TOV and each attempts field (makes
fixed). -/
theorem C9_score_monotone :
    (∀ b b' : BoxDict, ValidShots b → ValidShots b' →
      orZero b.REB = orZero b'.REB → orZero b.AST = orZero b'.AST →
      orZero b.STL = orZero b'.STL → orZero b.BLK = orZero b'.BLK →
      orZero b.TOV = orZero b'.TOV → orZero b.FGM = orZero b'.FGM →
      orZero b.FGA = orZero b'.FGA → orZero b.FG3M = orZero b'.FG3M →
      orZero b.FG3A = orZero b'.FG3A → orZero b.FTM = orZero b'.FTM →
      orZero b.FTA = orZero b'.FTA →
      orZero b.PTS ≤ orZero b'.PTS →
      calculate_ttfl_score b ≤ calculate_ttfl_score b') ∧
    (∀ b b' : BoxDict, ValidShots b → ValidShots b' →
      orZero b.PTS = orZero b'.PTS → orZero b.AST = orZero b'.AST →
      orZero b.STL = orZero b'.STL → orZero b.BLK = orZero b'.BLK →
      orZero b.TOV = orZero b'.TOV → orZero b.FGM = orZero b'.FGM →
      orZero b.FGA = orZero b'.FGA → orZero b.FG3M = orZero b'.FG3M →
      orZero b.FG3A = orZero b'.FG3A → orZero b.FTM = orZero b'.FTM →
      orZero b.FTA = orZero b'.FTA →
      orZero b.REB ≤ orZero b'.REB →
      calculate_ttfl_score b ≤ calculate_ttfl_score b') ∧
    (∀ b b' : BoxDict, ValidShots b → ValidShots b' →
      orZero b.PTS = orZero b'.PTS → orZero b.REB = orZero b'.REB →
      orZero b.STL = orZero b'.STL → orZero b.BLK = orZero b'.BLK →
      orZero b.TOV = orZero b'.TOV → orZero b.FGM = orZero b'.FGM →
      orZero b.FGA = orZero b'.FGA → orZero b.FG3M = orZero b'.FG3M →
      orZero b.FG3A = orZero b'.FG3A → orZero b.FTM = orZero b'.FTM →
      orZero b.FTA = orZero b'.FTA →
      orZero b.AST ≤ orZero b'.AST →
      calculate_ttfl_score b ≤ calculate_ttfl_score b') ∧
    (∀ b b' : BoxDict, ValidShots b → ValidShots b' →
      orZero b.PTS = orZero b'.PTS → orZero b.REB = orZero b'.REB →
      orZero b.AST = orZero b'.AST → orZero b.BLK = orZero b'.BLK →
      orZero b.TOV = orZero b'.TOV → orZero b.FGM = orZero b'.FGM →
      orZero b.FGA = orZero b'.FGA → orZero b.FG3M = orZero b'.FG3M →
      orZero b.FG3A = orZero b'.FG3A → orZero b.FTM = orZero b'.FTM →
      orZero b.FTA = orZero b'.FTA →
      orZero b.STL ≤ orZero b'.STL →
      calculate_ttfl_score b ≤ calculate_ttfl_score b') ∧
    (∀ b b' : BoxDict, ValidShots b → ValidShots b' →
      orZero b.PTS = orZero b'.PTS → orZero b.REB = orZero b'.REB →
      orZero b.AST = orZero b'.AST → orZero b.STL = orZero b'.STL →
      orZero b.TOV = orZero b'.TOV → orZero b.FGM = orZero b'.FGM →
      orZero b.FGA = orZero b'.FGA → orZero b.FG3M = orZero b'.FG3M →
      orZero b.FG3A = orZero b'.FG3A → orZero b.FTM = orZero b'.FTM →
      orZero b.FTA = orZero b'.FTA →
      orZero b.BLK ≤ orZero b'.BLK →
      calculate_ttfl_score b ≤ calculate_ttfl_score b') ∧
    (∀ b b' : BoxDict, ValidShots b → ValidShots b' →
      orZero b.PTS = orZero b'.PTS → orZero b.REB = orZero b'.REB →
      orZero b.AST = orZero b'.AST → orZero b.STL = orZero b'.STL →
      orZero b.BLK = orZero b'.BLK → orZero b.TOV = orZero b'.TOV →
      orZero b.FGA = orZero b'.FGA → orZero b.FG3M = orZero b'.FG3M →
      orZero b.FG3A = orZero b'.FG3A → orZero b.FTM = orZero b'.FTM →
      orZero b.FTA = orZero b'.FTA →
      orZero b.FGM ≤ orZero b'.FGM →
      calculate_ttfl_score b ≤ calculate_ttfl_score b') ∧
    (∀ b b' : BoxDict, ValidShots b → ValidShots b' →
      orZero b.PTS = orZero b'.PTS → orZero b.REB = orZero b'.REB →
      orZero b.AST = orZero b'.AST → orZero b.STL = orZero b'.STL →
      orZero b.BLK = orZero b'.BLK → orZero b.TOV = orZero b'.TOV →
      orZero b.FGM = orZero b'.FGM → orZero b.FGA = orZero b'.FGA →
      orZero b.FG3A = orZero b'.FG3A → orZero b.FTM = orZero b'.FTM →
      orZero b.FTA = orZero b'.FTA →
      orZero b.FG3M ≤ orZero b'.FG3M →
      calculate_ttfl_score b ≤ calculate_ttfl_score b') ∧
    (∀ b b' : BoxDict, ValidShots b → ValidShots b' →
      orZero b.PTS = orZero b'.PTS → orZero b.REB = orZero b'.REB →
      orZero b.AST = orZero b'.AST → orZero b.STL = orZero b'.STL →
      orZero b.BLK = orZero b'.BLK → orZero b.TOV = orZero b'.TOV →
      orZero b.FGM = orZero b'.FGM → orZero b.FGA = orZero b'.FGA →
      orZero b.FG3M = orZero b'.FG3M → orZero b.FG3A = orZero b'.FG3A →
      orZero b.FTA = orZero b'.FTA →
      orZero b.FTM ≤ orZero b'.FTM →
      calculate_ttfl_score b ≤ calculate_ttfl_score b') ∧
    (∀ b b' : BoxDict, ValidShots b → ValidShots b' →
      orZero b.PTS = orZero b'.PTS → orZero b.REB = orZero b'.REB →
      orZero b.AST = orZero b'.AST → orZero b.STL = orZero b'.STL →
      orZero b.BLK = orZero b'.BLK → orZero b.FGM = orZero b'.FGM →
      orZero b.FGA = orZero b'.FGA → orZero b.FG3M = orZero b'.FG3M →
      orZero b.FG3A = orZero b'.FG3A → orZero b.FTM = orZero b'.FTM →
      orZero b.FTA = orZero b'.FTA →
      orZero b.TOV ≤ orZero b'.TOV →
      calculate_ttfl_score b' ≤ calculate_ttfl_score b) ∧
    (∀ b b' : BoxDict, ValidShots b → ValidShots b' →
      orZero b.PTS = orZero b'.PTS → orZero b.REB = orZero b'.REB →
      orZero b.AST = orZero b'.AST → orZero b.STL = orZero b'.STL →
      orZero b.BLK = orZero b'.BLK → orZero b.TOV = orZero b'.TOV →
      orZero b.FGM = orZero b'.FGM → orZero b.FG3M = orZero b'.FG3M →
      orZero b.FG3A = orZero b'.FG3A → orZero b.FTM = orZero b'.FTM →
      orZero b.FTA = orZero b'.FTA →
      orZero b.FGA ≤ orZero b'.FGA →
      calculate_ttfl_score b' ≤ calculate_ttfl_score b) ∧
    (∀ b b' : BoxDict, ValidShots b → ValidShots b' →
      orZero b.PTS = orZero b'.PTS → orZero b.REB = orZero b'.REB →
      orZero b.AST = orZero b'.AST → orZero b.STL = orZero b'.STL →
      orZero b.BLK = orZero b'.BLK → orZero b.TOV = orZero b'.TOV →
      orZero b.FGM = orZero b'.FGM → orZero b.FGA = orZero b'.FGA →
      orZero b.FG3M = orZero b'.FG3M → orZero b.FTM = orZero b'.FTM →
      orZero b.FTA = orZero b'.FTA →
      orZero b.FG3A ≤ orZero b'.FG3A →
      calculate_ttfl_score b' ≤ calculate_ttfl_score b) ∧
    (∀ b b' : BoxDict, ValidShots b → ValidShots b' →
      orZero b.PTS = orZero b'.PTS → orZero b.REB = orZero b'.REB →
      orZero b.AST = orZero b'.AST → orZero b.STL = orZero b'.STL →
      orZero b.BLK = orZero b'.BLK → orZero b.TOV = orZero b'.TOV →
      orZero b.FGM = orZero b'.FGM → orZero b.FGA = orZero b'.FGA →
      orZero b.FG3M = orZero b'.FG3M → orZero b.FG3A = orZero b'.FG3A →
      orZero b.FTM = orZero b'.FTM →
      orZero b.FTA ≤ orZero b'.FTA →
      calculate_ttfl_score b' ≤ calculate_ttfl_score b) := by
  refine ⟨?_, ?_, ?_, ?_, ?_, ?_, ?_, ?_, ?_, ?_, ?_, ?_⟩ <;>
    · intro b b' hv hv' h1 h2 h3 h4 h5 h6 h7 h8 h9 h10 h11 hle
      rw [score_eq b, score_eq b']
      omega

/-- C9 witness: adding one point to the all-absent line does not decrease
the score. -/
theorem C9_score_monotone_witness :
    calculate_ttfl_score zeroBox ≤ calculate_ttfl_score onePtsBox :=
  C9_score_monotone.1 zeroBox onePtsBox (by constructor <;> decide)
    (by constructor <;> decide) (by decide) (by decide) (by decide) (by decide)
    (by decide) (by decide) (by decide) (by decide) (by decide) (by decide)
    (by decide) (by decide)

/-- Deleting a row the WHERE clause rejects leaves the query result set
unchanged. -/
theorem scoresData_drop (ids : List Nat) (t1 t2 : List SJRow) (r : SJRow)
    (h : queryKeep ids r = false) :
    scoresData ids (t1 ++ r :: t2) = scoresData ids (t1 ++ t2) := by
  unfold scoresData
  rw [List.filter_append, List.filter_append, List.filter_cons, h]
  simp

/-- A row the WHERE clause rejects can be deleted from the table without
changing the batch result. -/
theorem batch_drop_row (today : Int) (ids : List Nat) (t1 t2 : List SJRow)
    (r : SJRow) (h : queryKeep ids r = false) :
    batch_calculate_averages today (t1 ++ r :: t2) ids
      = batch_calculate_averages today (t1 ++ t2) ids := by
  unfold batch_calculate_averages
  rw [scoresData_drop ids t1 t2 r h]

/-- C8: score records for games the player did not play are excluded from
every average — the batch query admits only rows with non-null score and
minutes > 0, and `calculate_average_ttfl_score` ignores games whose MIN is
absent or not strictly positive, returning 0.0 when no played games
remain. -/
theorem C8_did_not_play_excluded :
    (∀ (today : Int) (ids : List Nat) (t1 t2 : List SJRow) (r : SJRow),
      r.minutes ≤ 0 ∨ r.ttfl_score = none →
      batch_calculate_averages today (t1 ++ r :: t2) ids
        = batch_calculate_averages today (t1 ++ t2) ids) ∧
    (∀ (g1 g2 : List BoxDict) (g : BoxDict), orZero g.MIN ≤ 0 →
      calculate_average_ttfl_score (g1 ++ g :: g2)
        = calculate_average_ttfl_score (g1 ++ g2)) ∧
    (∀ games : List BoxDict, (∀ g ∈ games, orZero g.MIN ≤ 0) →
      calculate_average_ttfl_score games = 0) := by
  refine ⟨?_, ?_, ?_⟩
  · intro today ids t1 t2 r h
    apply batch_drop_row
    rcases h with h | h <;> simp [queryKeep, h]
  · intro g1 g2 g h
    have hg : (decide (0 < orZero g.MIN)) = false := by simp; omega
    have hf : (g1 ++ g :: g2).filter (fun x => decide (0 < orZero x.MIN))
        = (g1 ++ g2).filter (fun x => decide (0 < orZero x.MIN)) := by
      rw [List.filter_append, List.filter_append, List.filter_cons, hg]
      simp
    by_cases hgg : g1 ++ g2 = []
    · obtain ⟨h1, h2⟩ := List.append_eq_nil.mp hgg
      subst h1; subst h2
      simp [calculate_average_ttfl_score, hg]
    · have hne : (g1 ++ g :: g2).isEmpty = false := by cases g1 <;> simp
      have hne2 : (g1 ++ g2).isEmpty = false := by simpa [List.isEmpty_iff] using hgg
      simp only [calculate_average_ttfl_score, hf, hne, hne2, Bool.false_eq_true,
        if_false]
  · intro games h
    have hfil : games.filter (fun x => decide (0 < orZero x.MIN)) = [] := by
      apply List.filter_eq_nil_iff.mpr
      intro a ha
      have := h a ha
      simp
      omega
    simp [calculate_average_ttfl_score, hfil]

/-- C8 witness: a single unplayed game averages the same as no games. -/
theorem C8_did_not_play_excluded_witness :
    calculate_average_ttfl_score ([] ++ zeroBox :: [])
      = calculate_average_ttfl_score ([] ++ []) :=
  C8_did_not_play_excluded.2.1 [] [] zeroBox (by decide)

/-- The grouping fold, started from any accumulator, appends each player's
tuples in stream order. -/
theorem groupScores_go (rows : List SRow) (m : Nat → List (Int × Int)) (pid : Nat) :
    rows.foldl
      (fun m r => fun q =>
        if q = r.player_id then m q ++ [(r.score, r.game_date)] else m q) m pid
      = m pid ++ (rows.filter (fun r => r.player_id == pid)).map
          (fun r => (r.score, r.game_date)) := by
  induction rows generalizing m with
  | nil => simp
  | cons r rest ih =>
    rw [List.foldl_cons, ih, List.filter_cons]
    by_cases hpid : pid = r.player_id
    · simp [hpid]
    · have : (r.player_id == pid) = false := by
        simp
        exact fun he => hpid he.symm
      simp [hpid, this]

/-- The `defaultdict` grouping equals per-player filtering of the result
stream. -/
theorem groupScores_apply (rows : List SRow) (pid : Nat) :
    groupScores rows pid
      = (rows.filter (fun r => r.player_id == pid)).map
          (fun r => (r.score, r.game_date)) := by
  have h := groupScores_go rows (fun _ => []) pid
  simpa [groupScores] using h

/-- `srowLE` is total. -/
theorem srowLE_total (a b : SRow) : srowLE a b = true ∨ srowLE b a = true := by
  simp [srowLE]
  omega

/-- `srowLE` is transitive. -/
theorem srowLE_trans {a b c : SRow} (h1 : srowLE a b = true)
    (h2 : srowLE b c = true) : srowLE a c = true := by
  simp [srowLE] at h1 h2 ⊢
  omega

/-- Membership through one insertion step. -/
theorem mem_insertSorted {a r : SRow} {l : List SRow} :
    a ∈ insertSorted r l ↔ a = r ∨ a ∈ l := by
  induction l with
  | nil => simp [insertSorted]
  | cons h t ih =>
    rw [insertSorted]
    by_cases hc : srowLE r h
    · simp [hc]
    · simp [hc, ih]
      tauto

/-- Insertion preserves sortedness. -/
theorem pairwise_insertSorted {r : SRow} {l : List SRow}
    (h : l.Pairwise (fun x y => srowLE x y = true)) :
    (insertSorted r l).Pairwise (fun x y => srowLE x y = true) := by
  induction l with
  | nil => simp [insertSorted]
  | cons hd t ih =>
    rw [List.pairwise_cons] at h
    rw [insertSorted]
    by_cases hc : srowLE r hd
    · rw [if_pos hc]
      refine List.Pairwise.cons ?_ (List.Pairwise.cons h.1 h.2)
      intro b hb
      rcases List.mem_cons.mp hb with rfl | hb
      · exact hc
      · exact srowLE_trans hc (h.1 b hb)
    · rw [if_neg hc]
      have hhd : srowLE hd r = true := by
        rcases srowLE_total r hd with ht | ht
        · exact absurd ht hc
        · exact ht
      refine List.Pairwise.cons ?_ (ih h.2)
      intro b hb
      rcases mem_insertSorted.mp hb with hb | hb
      · exact hb ▸ hhd
      · exact h.1 b hb

/-- The query's ORDER BY produces a sorted result set. -/
theorem sortRows_pairwise (l : List SRow) :
    (sortRows l).Pairwise (fun x y => srowLE x y = true) := by
  unfold sortRows
  induction l with
  | nil => simp
  | cons h t ih => exact pairwise_insertSorted ih

/-- A player's rows of the result set are ordered by game date
descending. -/
theorem playerHistory_sorted (ids : List Nat) (table : List SJRow) (pid : Nat) :
    (playerHistory ids table pid).Pairwise
      (fun a b => b.game_date ≤ a.game_date) := by
  unfold playerHistory
  have hp : (scoresData ids table).Pairwise (fun x y => srowLE x y = true) :=
    sortRows_pairwise _
  have hsub : ((scoresData ids table).filter
      (fun r => r.player_id == pid)).Pairwise (fun x y => srowLE x y = true) :=
    List.Pairwise.sublist (List.filter_sublist _) hp
  refine hsub.imp_of_mem ?_
  intro a b ha hb hle
  have ha2 := (List.mem_filter.mp ha).2
  have hb2 := (List.mem_filter.mp hb).2
  simp at ha2 hb2
  simp [srowLE, ha2, hb2] at hle
  omega

/-- C3: for every requested id list and score table, the batch result keys
are exactly the requested ids in order, and each id's three averages are
the one-decimal rounded means of, respectively, the first 15 entries, the
first 10 entries, and the entries dated within the last 30 days of that
player's filtered date-descending history — `0.0` whenever the relevant
entry set is empty, including players with no history at all. -/
theorem C3_batch_averages (today : Int) (table : List SJRow) (ids : List Nat) :
    batch_calculate_averages today table ids
      = ids.map (fun pid =>
          (pid,
            ⟨specAvg (((playerHistory ids table pid).take 15).map (fun r => r.score)),
             specAvg (((playerHistory ids table pid).take 10).map (fun r => r.score)),
             specAvg (((playerHistory ids table pid).filter
                (fun r => decide (today - 30 ≤ r.game_date))).map
                  (fun r => r.score))⟩))
    ∧ ∀ pid : Nat, (playerHistory ids table pid).Pairwise
        (fun a b => b.game_date ≤ a.game_date) := by
  constructor
  · cases hids : ids.isEmpty with
    | true =>
      rw [List.isEmpty_iff] at hids
      subst hids
      simp [batch_calculate_averages]
    | false =>
      unfold batch_calculate_averages
      rw [hids]
      simp only [Bool.false_eq_true, if_false]
      refine List.map_congr_left ?_
      intro pid _
      simp only [playerHistory]
      rw [groupScores_apply]
      simp [List.map_take, List.filter_map, List.map_map, specAvg,
        Function.comp_def]
  · intro pid
    exact playerHistory_sorted ids table pid

/-- C6: status reconciliation touches only stored, non-final games that the
fetched schedule knows: the row count is unchanged (no creation), final
games and games without a schedule record are returned verbatim, and a
non-final game with a record gets the external status, gets the external
results exactly when the new status is final and they differ, and keeps
every other field. -/
theorem C6_status_reconciliation (rows : List SchedRow) (games : List GameRow) :
    (update_game_statuses rows games).1.length = games.length ∧
    (∀ (k : Nat) (g : GameRow), games[k]? = some g →
      (g.status = "final" → (update_game_statuses rows games).1[k]? = some g) ∧
      (buildSchedule rows g.nba_game_id = none →
        (update_game_statuses rows games).1[k]? = some g) ∧
      (∀ (st : String) (hs aw : Option Int), g.status ≠ "final" →
        buildSchedule rows g.nba_game_id = some (st, hs, aw) →
        ∃ g' : GameRow, (update_game_statuses rows games).1[k]? = some g' ∧
          g'.status = st ∧
          g'.id = g.id ∧ g'.nba_game_id = g.nba_game_id ∧
          g'.game_date = g.game_date ∧
          g'.home_team_id = g.home_team_id ∧ g'.away_team_id = g.away_team_id ∧
          (st = "final" ∧ (g.home_score ≠ hs ∨ g.away_score ≠ aw) →
            g'.home_score = hs ∧ g'.away_score = aw) ∧
          (¬(st = "final" ∧ (g.home_score ≠ hs ∨ g.away_score ≠ aw)) →
            g'.home_score = g.home_score ∧ g'.away_score = g.away_score))) := by
  constructor
  · simp [update_game_statuses]
  · intro k g hk
    have hres : (update_game_statuses rows games).1[k]?
        = some (updateOneGame (buildSchedule rows) g) := by
      simp [update_game_statuses, List.getElem?_map, hk]
    refine ⟨?_, ?_, ?_⟩
    · intro hfin
      rw [hres]
      simp [updateOneGame, hfin]
    · intro hnone
      rw [hres]
      unfold updateOneGame
      rw [hnone]
      simp
    · intro st hs aw hnf hsome
      refine ⟨updateOneGame (buildSchedule rows) g, hres, ?_⟩
      unfold updateOneGame
      rw [if_neg hnf, hsome]
      dsimp only
      by_cases hcond : st = "final" ∧ (g.home_score ≠ hs ∨ g.away_score ≠ aw)
      · rw [if_pos hcond]
        by_cases hst : g.status ≠ st
        · rw [if_pos hst]
          refine ⟨rfl, rfl, rfl, rfl, rfl, rfl, fun _ => ⟨rfl, rfl⟩, fun hn => absurd hcond hn⟩
        · rw [if_neg hst]
          push_neg at hst
          refine ⟨hst, rfl, rfl, rfl, rfl, rfl, fun _ => ⟨rfl, rfl⟩, fun hn => absurd hcond hn⟩
      · rw [if_neg hcond]
        by_cases hst : g.status ≠ st
        · rw [if_pos hst]
          refine ⟨rfl, rfl, rfl, rfl, rfl, rfl, fun hc => absurd hc hcond, fun _ => ⟨rfl, rfl⟩⟩
        · rw [if_neg hst]
          push_neg at hst
          refine ⟨hst, rfl, rfl, rfl, rfl, rfl, fun hc => absurd hc hcond, fun _ => ⟨rfl, rfl⟩⟩

/-- C6 witness: a stored live game whose schedule row reports a 100–90
final is overwritten to final with those results, all other fields kept. -/
theorem C6_status_reconciliation_witness :
    ∃ g' : GameRow,
      (update_game_statuses [⟨11, 3, some 100, some 90⟩]
          [⟨1, 11, 50, "live", 7, 8, none, none⟩]).1[0]? = some g' ∧
      g'.status = "final" ∧
      g'.id = 1 ∧ g'.nba_game_id = 11 ∧ g'.game_date = 50 ∧
      g'.home_team_id = 7 ∧ g'.away_team_id = 8 ∧
      g'.home_score = some 100 ∧ g'.away_score = some 90 := by
  have h := (C6_status_reconciliation [⟨11, 3, some 100, some 90⟩]
      [⟨1, 11, 50, "live", 7, 8, none, none⟩]).2 0
      ⟨1, 11, 50, "live", 7, 8, none, none⟩ (by decide)
  obtain ⟨g', hg', hstat, hid, hnba, hdate, hhome, haway, hscores, -⟩ :=
    h.2.2 ("final") (some 100) (some 90) (by decide) (by decide)
  obtain ⟨hhs, haws⟩ := hscores (by constructor <;> decide)
  exact ⟨g', hg', hstat, hid, hnba, hdate, hhome, haway, hhs, haws⟩

/-- C7 (amended): provided at least one injury record was fetched, every
known player matching no record (neither by (name, team) key nor by name
alone) whose `injury_status` is set has all three fields nulled together; a
matched player's row is overwritten exactly when a field differs from the
fetched record (details normalised, empty to null); `cleared` counts
exactly the unmatched players with a status set and `updated` exactly the
matched players with a differing field. -/
theorem C7_injury_refresh (norm : String → String) (teams : List TeamRow)
    (injuries : List InjuryRec) (players : List PlayerRow)
    (hne : injuries ≠ []) :
    (∀ (k : Nat) (p : PlayerRow), players[k]? = some p →
      (matchInjury norm (injuryByNameTeam norm injuries) (injuryByName norm injuries)
          (teamsById teams) p = none →
        p.injury_status ≠ none →
        (update_player_injuries norm teams injuries players).players[k]?
          = some { p with injury_status := none, injury_return_date := none,
                          injury_details := none }) ∧
      (∀ (inj : InjuryRec) (key : String × String),
        matchInjury norm (injuryByNameTeam norm injuries) (injuryByName norm injuries)
            (teamsById teams) p = some (inj, key) →
        (update_player_injuries norm teams injuries players).players[k]?
          = some (if p.injury_status ≠ some inj.status ∨
                     p.injury_return_date ≠ some inj.return_date ∨
                     p.injury_details ≠ (if inj.details = "" then none else some inj.details)
                  then { p with injury_status := some inj.status,
                                injury_return_date := some inj.return_date,
                                injury_details :=
                                  if inj.details = "" then none else some inj.details }
                  else p))) ∧
    (update_player_injuries norm teams injuries players).cleared
      = players.countP (fun p =>
          (matchInjury norm (injuryByNameTeam norm injuries) (injuryByName norm injuries)
            (teamsById teams) p).isNone && p.injury_status.isSome) ∧
    (update_player_injuries norm teams injuries players).updated
      = players.countP (fun p =>
          match matchInjury norm (injuryByNameTeam norm injuries)
              (injuryByName norm injuries) (teamsById teams) p with
          | some (inj, _) =>
            decide (p.injury_status ≠ some inj.status ∨
              p.injury_return_date ≠ some inj.return_date ∨
              p.injury_details ≠ (if inj.details = "" then none else some inj.details))
          | none => false) := by
  have hie : injuries.isEmpty = false := by
    cases injuries with
    | nil => exact absurd rfl hne
    | cons a l => rfl
  refine ⟨?_, ?_, ?_⟩
  · intro k p hk
    have hres : (update_player_injuries norm teams injuries players).players[k]?
        = some (updateOnePlayer norm (injuryByNameTeam norm injuries)
            (injuryByName norm injuries) (teamsById teams) p) := by
      unfold update_player_injuries
      rw [hie]
      simp [List.getElem?_map, hk]
    constructor
    · intro hmatch hstat
      rw [hres]
      unfold updateOnePlayer
      rw [hmatch]
      dsimp only
      rw [if_pos hstat]
    · intro inj key hmatch
      rw [hres]
      unfold updateOnePlayer
      rw [hmatch]
      dsimp only
      unfold applyInjury
      dsimp only
      by_cases hc : p.injury_status ≠ some inj.status ∨
          p.injury_return_date ≠ some inj.return_date ∨
          p.injury_details ≠ (if inj.details = "" then none else some inj.details)
      · simp only [if_pos hc]
      · simp only [if_neg hc]
  · simp only [update_player_injuries, hie, Bool.false_eq_true, if_false]
  · simp only [update_player_injuries, hie, Bool.false_eq_true, if_false]
    apply List.countP_congr
    intro p _
    cases hm : matchInjury norm (injuryByNameTeam norm injuries)
        (injuryByName norm injuries) (teamsById teams) p with
    | none => rfl
    | some v =>
      obtain ⟨inj, key⟩ := v
      by_cases hc : p.injury_status ≠ some inj.status ∨
          p.injury_return_date ≠ some inj.return_date ∨
          p.injury_details ≠ (if inj.details = "" then none else some inj.details)
      · simp [applyInjury, hc]
      · simp [applyInjury, hc]

/-- C7 witness: with one fetched record that matches nobody, the stored
player with a status set is fully cleared. -/
theorem C7_injury_refresh_witness :
    (update_player_injuries (fun s => s) []
        [⟨"Ann Smith", "Tigers", "Out", "Jan 20", "knee"⟩] [cexInjPlayer]).players[0]?
      = some { cexInjPlayer with
          injury_status := none
          injury_return_date := none
          injury_details := none } :=
  ((C7_injury_refresh (fun s => s) []
      [⟨"Ann Smith", "Tigers", "Out", "Jan 20", "knee"⟩] [cexInjPlayer]
      (by decide)).1 0 cexInjPlayer (by decide)).1 (by decide) (by decide)

/-- C7 counterexample: with an empty fetched injury list the phase returns
early — the stored player keeps the status the claim says must be cleared,
and nothing is counted. -/
theorem C7_injury_refresh_cex :
    update_player_injuries (fun s => s) [] [] [cexInjPlayer]
        = ⟨[cexInjPlayer], 0, 0, []⟩ ∧
      cexInjPlayer.injury_status = some ("Out") :=
  ⟨by decide, by decide⟩

/-- C1 (amended): a failed reload never mutates the three player indexes or
the loaded flag, and never mutates an index whose bulk read did not
succeed: if the teams read fails the snapshot is fully unchanged; if the
games read fails, `games_by_date` keeps its prior value while `teams_by_id`
has already been replaced by the fresh teams; if the players read fails,
the teams and games indexes hold the fresh data and the player indexes the
prior ones. -/
theorem C1_cache_reload_failure (db : CacheDb) (c : Cache)
    (hfail : (load_schedule db c).2 = false) :
    (load_schedule db c).1.players_by_id = c.players_by_id ∧
    (load_schedule db c).1.players_by_nba_id = c.players_by_nba_id ∧
    (load_schedule db c).1.players_by_team = c.players_by_team ∧
    (load_schedule db c).1.loaded = c.loaded ∧
    (db.teamsQ = none → (load_schedule db c).1 = c) ∧
    (∀ teams, db.teamsQ = some teams → db.gamesQ = none →
      (load_schedule db c).1.games_by_date = c.games_by_date ∧
      (load_schedule db c).1.teams_by_id = teamsById teams) ∧
    (∀ teams games, db.teamsQ = some teams → db.gamesQ = some games →
      db.playersQ = none →
      (load_schedule db c).1.teams_by_id = teamsById teams ∧
      (load_schedule db c).1.games_by_date = groupGamesByDate games) := by
  rcases db with ⟨tq, gq, pq⟩
  cases tq with
  | none => simp [load_schedule]
  | some teams =>
    cases gq with
    | none => simp [load_schedule]
    | some games =>
      cases pq with
      | none => simp [load_schedule]
      | some players => simp [load_schedule] at hfail

/-- C1 witness: the amended theorem applied to the games-read-fails
scenario — the player index is untouched. -/
theorem C1_cache_reload_failure_witness :
    (load_schedule cexCacheDbFail cexCacheReady).1.players_by_id
      = cexCacheReady.players_by_id :=
  (C1_cache_reload_failure cexCacheDbFail cexCacheReady (by decide)).1

/-- C1 counterexample: on the Ready snapshot holding team 1, a reload whose
games bulk read fails leaves the cache mutated — the lookup of team 1 that
succeeded before the failed attempt returns nothing afterwards, because
`teams_by_id` was already replaced. -/
theorem C1_cache_reload_failure_cex :
    get_team cexCacheReady 1 = some cexTeamA ∧
    (load_schedule cexCacheDbFail cexCacheReady).2 = false ∧
    get_team (load_schedule cexCacheDbFail cexCacheReady).1 1 = none :=
  ⟨by decide, by decide, by decide⟩

/-- A sleep list shifted by one attempt. -/
theorem range_map_pow_shift (base : ℚ) (attempt i : Nat) :
    (List.range (i + 1)).map (fun j => base * 2 ^ (attempt + j))
      = base * 2 ^ attempt
          :: (List.range i).map (fun j => base * 2 ^ (attempt + 1 + j)) := by
  simp only [List.range_succ_eq_map, List.map_cons, List.map_map, Nat.add_zero]
  congr 1
  refine List.map_congr_left ?_
  intro j _
  show base * 2 ^ (attempt + (j + 1)) = base * 2 ^ (attempt + 1 + j)
  have hadd : attempt + (j + 1) = attempt + 1 + j := by omega
  rw [hadd]

/-- The `2 ** attempt` sleep list shifted by one attempt. -/
theorem range_map_pow2_shift (attempt i : Nat) :
    (List.range (i + 1)).map (fun j => ((2 : ℚ) ^ (attempt + j)))
      = (2 : ℚ) ^ attempt
          :: (List.range i).map (fun j => ((2 : ℚ) ^ (attempt + 1 + j))) := by
  simp only [List.range_succ_eq_map, List.map_cons, List.map_map, Nat.add_zero]
  congr 1
  refine List.map_congr_left ?_
  intro j _
  show (2 : ℚ) ^ (attempt + (j + 1)) = (2 : ℚ) ^ (attempt + 1 + j)
  have hadd : attempt + (j + 1) = attempt + 1 + j := by omega
  rw [hadd]

/-- In the decorator loop, after `i` timeout-classified failures, a
non-timeout failure on attempt `i` is re-raised at once with the backoff
sleeps accumulated so far. -/
theorem retryAux_reach_fail {α : Type} (base : ℚ) (calls : Nat → CallResult α)
    (m : String) :
    ∀ (i attempt r : Nat) (last : Option String), i < r →
    (∀ j, j < i → ∃ mj, calls (attempt + j) = .err mj ∧ isTimeoutMsg mj = true) →
    calls (attempt + i) = .err m → isTimeoutMsg m = false →
    retryAux base calls attempt last r
      = (.err m, (List.range i).map (fun j => base * 2 ^ (attempt + j))) := by
  intro i
  induction i with
  | zero =>
    intro attempt r last hir h hcall htm
    cases r with
    | zero => omega
    | succ r2 =>
      rw [Nat.add_zero] at hcall
      simp only [retryAux, hcall, htm]
      rfl
  | succ i ih =>
    intro attempt r last hir h hcall htm
    cases r with
    | zero => omega
    | succ r2 =>
      obtain ⟨m0, hm0, ht0⟩ := h 0 (Nat.succ_pos i)
      rw [Nat.add_zero] at hm0
      simp only [retryAux, hm0, ht0, if_true]
      have hsh : ∀ j, j < i → ∃ mj, calls (attempt + 1 + j) = .err mj ∧
          isTimeoutMsg mj = true := by
        intro j hj
        have hadd : attempt + 1 + j = attempt + (j + 1) := by omega
        rw [hadd]
        exact h (j + 1) (by omega)
      have hc2 : calls (attempt + 1 + i) = .err m := by
        have hadd : attempt + 1 + i = attempt + (i + 1) := by omega
        rw [hadd]
        exact hcall
      rw [ih (attempt + 1) r2 (some m0) (by omega) hsh hc2 htm,
        range_map_pow_shift]

/-- In the decorator loop, after `i` timeout-classified failures, a success
on attempt `i` returns the value with the backoff sleeps accumulated so
far. -/
theorem retryAux_reach_ok {α : Type} (base : ℚ) (calls : Nat → CallResult α)
    (a : α) :
    ∀ (i attempt r : Nat) (last : Option String), i < r →
    (∀ j, j < i → ∃ mj, calls (attempt + j) = .err mj ∧ isTimeoutMsg mj = true) →
    calls (attempt + i) = .ok a →
    retryAux base calls attempt last r
      = (.ok a, (List.range i).map (fun j => base * 2 ^ (attempt + j))) := by
  intro i
  induction i with
  | zero =>
    intro attempt r last hir h hcall
    cases r with
    | zero => omega
    | succ r2 =>
      rw [Nat.add_zero] at hcall
      simp only [retryAux, hcall]
      rfl
  | succ i ih =>
    intro attempt r last hir h hcall
    cases r with
    | zero => omega
    | succ r2 =>
      obtain ⟨m0, hm0, ht0⟩ := h 0 (Nat.succ_pos i)
      rw [Nat.add_zero] at hm0
      simp only [retryAux, hm0, ht0, if_true]
      have hsh : ∀ j, j < i → ∃ mj, calls (attempt + 1 + j) = .err mj ∧
          isTimeoutMsg mj = true := by
        intro j hj
        have hadd : attempt + 1 + j = attempt + (j + 1) := by omega
        rw [hadd]
        exact h (j + 1) (by omega)
      have hc2 : calls (attempt + 1 + i) = .ok a := by
        have hadd : attempt + 1 + i = attempt + (i + 1) := by omega
        rw [hadd]
        exact hcall
      rw [ih (attempt + 1) r2 (some m0) (by omega) hsh hc2, range_map_pow_shift]

/-- One decorator-loop step on a timeout failure: sleep, then retry. -/
theorem retryAux_succ_timeout {α : Type} (base : ℚ) (calls : Nat → CallResult α)
    (attempt r : Nat) (last : Option String) (m : String)
    (hm : calls attempt = .err m) (ht : isTimeoutMsg m = true) :
    (retryAux base calls attempt last (r + 1) : RetryOutcome α × List ℚ)
      = ((retryAux base calls (attempt + 1) (some m) r).1,
         base * 2 ^ attempt :: (retryAux base calls (attempt + 1) (some m) r).2) := by
  simp only [retryAux, hm, ht, if_true]

/-- One nba_api-loop step on a timeout failure that is not the last
attempt: sleep `2 ** attempt`, then retry. -/
theorem nbaRetryAux_succ_timeout {α : Type} (empty : α)
    (calls : Nat → CallResult α) (N attempt r : Nat) (m : String)
    (hm : calls attempt = .err m) (ht : isTimeoutMsg m = true)
    (hl : (attempt + 1 == N) = false) :
    nbaRetryAux empty calls N attempt (r + 1)
      = ((nbaRetryAux empty calls N (attempt + 1) r).1,
         (2 : ℚ) ^ attempt :: (nbaRetryAux empty calls N (attempt + 1) r).2) := by
  simp only [nbaRetryAux, hm, ht, hl, Bool.not_false, Bool.and_self, if_true]

/-- In the decorator loop, when every attempt fails with a timeout, the
most recent failure is re-raised after one backoff sleep per attempt. -/
theorem retryAux_exhaust {α : Type} (base : ℚ) (calls : Nat → CallResult α)
    (ms : Nat → String) :
    ∀ (r attempt : Nat) (last : Option String), 0 < r →
    (∀ j, j < r → calls (attempt + j) = .err (ms (attempt + j)) ∧
      isTimeoutMsg (ms (attempt + j)) = true) →
    (retryAux base calls attempt last r : RetryOutcome α × List ℚ)
      = (.err (ms (attempt + (r - 1))),
         (List.range r).map (fun j => base * 2 ^ (attempt + j))) := by
  intro r
  induction r with
  | zero => omega
  | succ r2 ih =>
    intro attempt last hpos h
    obtain ⟨hm0, ht0⟩ := h 0 (by omega)
    rw [Nat.add_zero] at hm0 ht0
    rw [retryAux_succ_timeout base calls attempt r2 last (ms attempt) hm0 ht0]
    cases r2 with
    | zero =>
      simp only [retryAux]
      simp [List.range_succ]
    | succ r3 =>
      have hsh : ∀ j, j < r3 + 1 →
          calls (attempt + 1 + j) = .err (ms (attempt + 1 + j)) ∧
          isTimeoutMsg (ms (attempt + 1 + j)) = true := by
        intro j hj
        have hadd : attempt + 1 + j = attempt + (j + 1) := by omega
        rw [hadd]
        exact h (j + 1) (by omega)
      rw [ih (attempt + 1) (some (ms attempt)) (by omega) hsh]
      dsimp only
      have hadd : attempt + 1 + (r3 + 1 - 1) = attempt + (r3 + 1 + 1 - 1) := by
        omega
      rw [hadd, ← range_map_pow_shift]

/-- In the nba_api loop, after `i` timeout retries, a non-timeout failure
makes the call return the empty result (no propagation), with the
`2 ** attempt` sleeps accumulated so far. -/
theorem nbaRetryAux_reach_fail {α : Type} (empty : α) (calls : Nat → CallResult α)
    (N : Nat) (m : String) :
    ∀ (i attempt r : Nat), attempt + r = N → i < r →
    (∀ j, j < i → ∃ mj, calls (attempt + j) = .err mj ∧ isTimeoutMsg mj = true) →
    calls (attempt + i) = .err m → isTimeoutMsg m = false →
    nbaRetryAux empty calls N attempt r
      = (empty, (List.range i).map (fun j => ((2 : ℚ) ^ (attempt + j)))) := by
  intro i
  induction i with
  | zero =>
    intro attempt r hN hir h hcall htm
    cases r with
    | zero => omega
    | succ r2 =>
      rw [Nat.add_zero] at hcall
      simp only [nbaRetryAux, hcall, htm]
      rfl
  | succ i ih =>
    intro attempt r hN hir h hcall htm
    cases r with
    | zero => omega
    | succ r2 =>
      obtain ⟨m0, hm0, ht0⟩ := h 0 (Nat.succ_pos i)
      rw [Nat.add_zero] at hm0
      have hlast : (attempt + 1 == N) = false := by
        simp
        omega
      simp only [nbaRetryAux, hm0, ht0, hlast, Bool.not_false, Bool.and_self,
        if_true]
      have hsh : ∀ j, j < i → ∃ mj, calls (attempt + 1 + j) = .err mj ∧
          isTimeoutMsg mj = true := by
        intro j hj
        have hadd : attempt + 1 + j = attempt + (j + 1) := by omega
        rw [hadd]
        exact h (j + 1) (by omega)
      have hc2 : calls (attempt + 1 + i) = .err m := by
        have hadd : attempt + 1 + i = attempt + (i + 1) := by omega
        rw [hadd]
        exact hcall
      rw [ih (attempt + 1) r2 (by omega) (by omega) hsh hc2 htm,
        range_map_pow2_shift]

/-- In the nba_api loop, when every attempt times out, the call returns the
empty result (no propagation), sleeping between attempts but not after the
last one. -/
theorem nbaRetryAux_exhaust {α : Type} (empty : α) (calls : Nat → CallResult α)
    (N : Nat) :
    ∀ (r attempt : Nat), 0 < r → attempt + r = N →
    (∀ j, j < r → ∃ mj, calls (attempt + j) = .err mj ∧
      isTimeoutMsg mj = true) →
    nbaRetryAux empty calls N attempt r
      = (empty, (List.range (r - 1)).map (fun j => ((2 : ℚ) ^ (attempt + j)))) := by
  intro r
  induction r with
  | zero => omega
  | succ r2 ih =>
    intro attempt hpos hN h
    obtain ⟨m0, hm0, ht0⟩ := h 0 (by omega)
    rw [Nat.add_zero] at hm0
    cases r2 with
    | zero =>
      have hlast : (attempt + 1 == N) = true := by simp; omega
      simp only [nbaRetryAux, hm0, ht0, hlast]
      rfl
    | succ r3 =>
      have hlast : (attempt + 1 == N) = false := by
        simp
        omega
      have hsh : ∀ j, j < r3 + 1 → ∃ mj, calls (attempt + 1 + j) = .err mj ∧
          isTimeoutMsg mj = true := by
        intro j hj
        have hadd : attempt + 1 + j = attempt + (j + 1) := by omega
        rw [hadd]
        exact h (j + 1) (by omega)
      rw [nbaRetryAux_succ_timeout empty calls N attempt (r3 + 1) m0 hm0 ht0
        hlast, ih (attempt + 1) (by omega) (by omega) hsh]
      dsimp only
      have hr : r3 + 1 + 1 - 1 = (r3 + 1 - 1) + 1 := by omega
      rw [hr, ← range_map_pow2_shift]

/-- C5 (amended): the `retry_on_timeout` decorator behaves as claimed — a
non-timeout failure is propagated immediately and unchanged, each timeout
with attempts remaining costs one `D * 2 ^ attempt` sleep before the retry,
and after N consecutive timeouts the most recent failure is propagated —
while the inline retry loops of `get_player_stats`/`get_game_box_scores`
sleep `2 ^ attempt` between timeout retries but never propagate: any
non-timeout failure, and exhaustion of attempts, returns the empty result
list instead. -/
theorem C5_retry_policy :
    (∀ (α : Type) (N : Nat) (D : ℚ) (calls : Nat → CallResult α) (i : Nat)
        (m : String), i < N →
      (∀ j, j < i → ∃ mj, calls j = .err mj ∧ isTimeoutMsg mj = true) →
      calls i = .err m → isTimeoutMsg m = false →
      retry_on_timeout N D calls
        = (.err m, (List.range i).map (fun j => D * 2 ^ j))) ∧
    (∀ (α : Type) (N : Nat) (D : ℚ) (calls : Nat → CallResult α) (i : Nat)
        (a : α), i < N →
      (∀ j, j < i → ∃ mj, calls j = .err mj ∧ isTimeoutMsg mj = true) →
      calls i = .ok a →
      retry_on_timeout N D calls
        = (.ok a, (List.range i).map (fun j => D * 2 ^ j))) ∧
    (∀ (α : Type) (N : Nat) (D : ℚ) (calls : Nat → CallResult α)
        (ms : Nat → String), 0 < N →
      (∀ j, j < N → calls j = .err (ms j) ∧ isTimeoutMsg (ms j) = true) →
      (retry_on_timeout N D calls : RetryOutcome α × List ℚ)
        = (.err (ms (N - 1)), (List.range N).map (fun j => D * 2 ^ j))) ∧
    (∀ (α : Type) (empty : α) (N : Nat) (calls : Nat → CallResult α) (i : Nat)
        (m : String), i < N →
      (∀ j, j < i → ∃ mj, calls j = .err mj ∧ isTimeoutMsg mj = true) →
      calls i = .err m → isTimeoutMsg m = false →
      nbaRetryLoop empty calls N
        = (empty, (List.range i).map (fun j => ((2 : ℚ) ^ j)))) ∧
    (∀ (α : Type) (empty : α) (N : Nat) (calls : Nat → CallResult α), 0 < N →
      (∀ j, j < N → ∃ mj, calls j = .err mj ∧ isTimeoutMsg mj = true) →
      nbaRetryLoop empty calls N
        = (empty, (List.range (N - 1)).map (fun j => ((2 : ℚ) ^ j)))) := by
  refine ⟨?_, ?_, ?_, ?_, ?_⟩
  · intro α N D calls i m hiN h hcall htm
    have hr := retryAux_reach_fail D calls m i 0 N none hiN
      (by intro j hj; simpa using h j hj) (by simpa using hcall) htm
    simpa [retry_on_timeout] using hr
  · intro α N D calls i a hiN h hcall
    have hr := retryAux_reach_ok D calls a i 0 N none hiN
      (by intro j hj; simpa using h j hj) (by simpa using hcall)
    simpa [retry_on_timeout] using hr
  · intro α N D calls ms hN h
    have hr := retryAux_exhaust D calls ms N 0 none hN
      (by intro j hj; simpa using h j hj)
    simpa [retry_on_timeout] using hr
  · intro α empty N calls i m hiN h hcall htm
    have hr := nbaRetryAux_reach_fail empty calls N m i 0 N (by omega) hiN
      (by intro j hj; simpa using h j hj) (by simpa using hcall) htm
    simpa [nbaRetryLoop] using hr
  · intro α empty N calls hN h
    have hr := nbaRetryAux_exhaust empty calls N N 0 hN (by omega)
      (by intro j hj; simpa using h j hj)
    simpa [nbaRetryLoop] using hr

/-- C5 witness: a non-timeout failure on the first attempt is re-raised by
the decorator with no sleeps. -/
theorem C5_retry_policy_witness :
    (retry_on_timeout 3 10 (fun _ => CallResult.err ("boom"))
        : RetryOutcome (List Nat) × List ℚ)
      = (.err ("boom"), []) := by
  have h := C5_retry_policy.1 (List Nat) 3 10 (fun _ => CallResult.err ("boom"))
    0 ("boom") (by omega) (by intro j hj; omega) rfl (by decide)
  simpa using h

/-- C5 counterexample: in the nba_api loops a failure is never propagated —
a non-timeout failure returns the normal empty result immediately, and
three straight timeouts also return the empty result (after sleeping 1s
then 2s), indistinguishable from a successful empty fetch. -/
theorem C5_retry_policy_cex :
    nbaRetryLoop ([] : List LogLine)
        (fun _ => CallResult.err ("connection refused")) 3 = ([], []) ∧
    nbaRetryLoop ([] : List LogLine)
        (fun _ => CallResult.err ("Read timed out")) 3 = ([], [1, 2]) :=
  ⟨by decide, by decide⟩

/-- Membership through one insertion step of the date sort. -/
theorem mem_insertGameByDate {a g : GameRow} {l : List GameRow} :
    a ∈ insertGameByDate g l ↔ a = g ∨ a ∈ l := by
  induction l with
  | nil => simp [insertGameByDate]
  | cons h t ih =>
    rw [insertGameByDate]
    by_cases hc : g.game_date < h.game_date
    · simp [hc]
    · simp [hc, ih]
      tauto

/-- Sorting by date does not change membership. -/
theorem mem_sortGamesByDate {a : GameRow} {l : List GameRow} :
    a ∈ sortGamesByDate l ↔ a ∈ l := by
  induction l with
  | nil => simp [sortGamesByDate]
  | cons h t ih =>
    show a ∈ insertGameByDate h (sortGamesByDate t) ↔ _
    rw [mem_insertGameByDate, ih]
    simp

/-- The games phase 2 processes are exactly the stored final games on or
after the season start with no score row. -/
theorem mem_needingGames {g : GameRow} {seasonStart : Int} {db : Db} :
    g ∈ needingGames seasonStart db ↔
      g ∈ db.games ∧ g.status = "final" ∧ seasonStart ≤ g.game_date ∧
        hasScoreFor db.scores g.id = false := by
  unfold needingGames
  rw [mem_sortGamesByDate, List.mem_filter]
  simp
  tauto

/-- A pair that exists keeps existing as the score list grows. -/
theorem pairExists_append {sc t : List ScoreRow} {pid gid : Nat}
    (h : pairExists sc pid gid = true) : pairExists (sc ++ t) pid gid = true := by
  unfold pairExists at h ⊢
  rw [List.any_append, h]
  rfl

/-- A pair for a game means the game has a score row. -/
theorem pairExists_hasScore {sc : List ScoreRow} {pid gid : Nat}
    (h : pairExists sc pid gid = true) : hasScoreFor sc gid = true := by
  unfold pairExists at h
  unfold hasScoreFor
  obtain ⟨r, hr, hcond⟩ := List.any_eq_true.mp h
  refine List.any_eq_true.mpr ⟨r, hr, ?_⟩
  exact (Bool.and_elim_right hcond)

/-- A game with a score row keeps it as the score list grows. -/
theorem hasScoreFor_append {sc t : List ScoreRow} {gid : Nat}
    (h : hasScoreFor sc gid = true) : hasScoreFor (sc ++ t) gid = true := by
  unfold hasScoreFor at h ⊢
  rw [List.any_append, h]
  rfl

/-- One box line only ever appends, and only rows of its own game. -/
theorem processBoxLine_append (pmap : Nat → Option Nat) (gid : Nat)
    (sc : List ScoreRow) (line : BoxLine) :
    ∃ t, processBoxLine pmap gid sc line = sc ++ t ∧
      ∀ r ∈ t, r.game_id = gid := by
  unfold processBoxLine
  cases pmap line.nba_player_id with
  | none => exact ⟨[], by simp⟩
  | some pid =>
    by_cases h0 : pid = 0
    · refine ⟨[], by simp [h0]⟩
    · by_cases hp : pairExists sc pid gid = true
      · refine ⟨[], by simp [h0, hp]⟩
      · refine ⟨[⟨pid, gid, calculate_ttfl_score line.stats, line.minutes⟩], ?_⟩
        simp only [h0, hp]
        simp

/-- A fold of box lines only ever appends rows of its own game. -/
theorem foldBox_append (pmap : Nat → Option Nat) (gid : Nat)
    (lines : List BoxLine) :
    ∀ sc, ∃ t, lines.foldl (processBoxLine pmap gid) sc = sc ++ t ∧
      ∀ r ∈ t, r.game_id = gid := by
  induction lines with
  | nil => intro sc; exact ⟨[], by simp⟩
  | cons line rest ih =>
    intro sc
    rw [List.foldl_cons]
    obtain ⟨t1, ht1, hg1⟩ := processBoxLine_append pmap gid sc line
    obtain ⟨t2, ht2, hg2⟩ := ih (processBoxLine pmap gid sc line)
    refine ⟨t1 ++ t2, ?_, ?_⟩
    · rw [ht2, ht1, List.append_assoc]
    · intro r hr
      rcases List.mem_append.mp hr with hr | hr
      · exact hg1 r hr
      · exact hg2 r hr

/-- Phase 2a only ever appends score rows. -/
theorem boxPhase_append (ext : Ext) (pmap : Nat → Option Nat) :
    ∀ (gs : List GameRow) (sc : List ScoreRow),
      ∃ t, (boxPhase ext pmap gs sc).1 = sc ++ t := by
  intro gs
  induction gs with
  | nil => intro sc; exact ⟨[], by simp [boxPhase]⟩
  | cons g rest ih =>
    intro sc
    rw [boxPhase]
    by_cases hb : (ext.box g.nba_game_id).isEmpty
    · obtain ⟨t, ht⟩ := ih sc
      exact ⟨t, by simp [hb, ht]⟩
    · obtain ⟨t1, ht1, -⟩ :=
        foldBox_append pmap g.id (ext.box g.nba_game_id) sc
      obtain ⟨t2, ht2⟩ := ih ((ext.box g.nba_game_id).foldl (processBoxLine pmap g.id) sc)
      refine ⟨t1 ++ t2, ?_⟩
      simp only [hb, Bool.false_eq_true, if_false]
      rw [ht2, ht1, List.append_assoc]

/-- Phase 2a queues exactly the processed games whose box-score fetch came
back empty. -/
theorem boxPhase_failed (ext : Ext) (pmap : Nat → Option Nat) :
    ∀ (gs : List GameRow) (sc : List ScoreRow) (g : GameRow),
      g ∈ (boxPhase ext pmap gs sc).2 ↔
        g ∈ gs ∧ (ext.box g.nba_game_id).isEmpty = true := by
  intro gs
  induction gs with
  | nil => intro sc g; simp [boxPhase]
  | cons hd rest ih =>
    intro sc g
    rw [boxPhase]
    by_cases hb : (ext.box hd.nba_game_id).isEmpty
    · simp only [hb, if_true]
      constructor
      · intro hg
        rcases List.mem_cons.mp hg with rfl | hg
        · exact ⟨List.mem_cons_self _ _, hb⟩
        · obtain ⟨h1, h2⟩ := (ih sc g).mp hg
          exact ⟨List.mem_cons_of_mem _ h1, h2⟩
      · intro ⟨h1, h2⟩
        rcases List.mem_cons.mp h1 with rfl | h1
        · exact List.mem_cons_self _ _
        · exact List.mem_cons_of_mem _ ((ih sc g).mpr ⟨h1, h2⟩)
    · simp only [hb, Bool.false_eq_true, if_false]
      rw [ih]
      constructor
      · intro ⟨h1, h2⟩
        exact ⟨List.mem_cons_of_mem _ h1, h2⟩
      · intro ⟨h1, h2⟩
        rcases List.mem_cons.mp h1 with rfl | h1
        · rw [h2] at hb
          exact absurd rfl hb
        · exact ⟨h1, h2⟩

/-- Once a box line with a known, non-zero player id has been folded in,
the (player, game) pair exists in the resulting score list. -/
theorem foldBox_guarantee (pmap : Nat → Option Nat) (gid : Nat)
    (lines : List BoxLine) :
    ∀ (sc : List ScoreRow) (line : BoxLine), line ∈ lines →
      ∀ pid, pmap line.nba_player_id = some pid → pid ≠ 0 →
      pairExists (lines.foldl (processBoxLine pmap gid) sc) pid gid = true := by
  induction lines with
  | nil => simp
  | cons hd rest ih =>
    intro sc line hline pid hpid h0
    rw [List.foldl_cons]
    rcases List.mem_cons.mp hline with rfl | hline
    · have hstep : pairExists (processBoxLine pmap gid sc line) pid gid = true := by
        unfold processBoxLine
        rw [hpid]
        dsimp only
        rw [if_neg h0]
        by_cases hp : pairExists sc pid gid = true
        · rw [if_pos hp]
          exact hp
        · rw [if_neg hp]
          unfold pairExists
          rw [List.any_append]
          simp
      obtain ⟨t, ht, -⟩ := foldBox_append pmap gid rest (processBoxLine pmap gid sc line)
      rw [ht]
      exact pairExists_append hstep
    · exact ih _ line hline pid hpid h0

/-- After phase 2a, every line of a processed game with non-empty box data
and a known, non-zero player id has its pair in the score list. -/
theorem boxPhase_guarantee (ext : Ext) (pmap : Nat → Option Nat) :
    ∀ (gs : List GameRow) (sc : List ScoreRow) (g : GameRow), g ∈ gs →
      (ext.box g.nba_game_id).isEmpty = false →
      ∀ line ∈ ext.box g.nba_game_id, ∀ pid,
        pmap line.nba_player_id = some pid → pid ≠ 0 →
        pairExists (boxPhase ext pmap gs sc).1 pid g.id = true := by
  intro gs
  induction gs with
  | nil => simp
  | cons hd rest ih =>
    intro sc g hg hbne line hline pid hpid h0
    rw [boxPhase]
    rcases List.mem_cons.mp hg with rfl | hg
    · simp only [hbne, Bool.false_eq_true, if_false]
      have h1 := foldBox_guarantee pmap g.id (ext.box g.nba_game_id) sc line hline
        pid hpid h0
      obtain ⟨t, ht⟩ := boxPhase_append ext pmap rest
        ((ext.box g.nba_game_id).foldl (processBoxLine pmap g.id) sc)
      rw [ht]
      exact pairExists_append h1
    · by_cases hb : (ext.box hd.nba_game_id).isEmpty
      · simp only [hb, if_true]
        exact ih sc g hg hbne line hline pid hpid h0
      · simp only [hb, Bool.false_eq_true, if_false]
        exact ih _ g hg hbne line hline pid hpid h0

/-- One player-log entry only ever appends, and only rows with minutes 0. -/
theorem processLog_append (s : Int) (lookup : Int × Nat → Option GameRow)
    (p : PlayerRow) (sc : List ScoreRow) (log : LogLine) :
    ∃ t, processLog s lookup p sc log = sc ++ t ∧ ∀ r ∈ t, r.minutes = 0 := by
  unfold processLog
  cases log.game_date with
  | none => exact ⟨[], by simp⟩
  | some d =>
    by_cases hd : d < s
    · exact ⟨[], by simp [hd]⟩
    · cases hl : lookup (d, p.team_id) with
      | none => exact ⟨[], by simp [hd, hl]⟩
      | some g =>
        by_cases hp : pairExists sc p.id g.id = true
        · exact ⟨[], by simp [hd, hl, hp]⟩
        · refine ⟨[⟨p.id, g.id, calculate_ttfl_score log.stats, 0⟩], ?_⟩
          simp [hd, hl, hp]

/-- A fold of player-log entries only ever appends minutes-0 rows. -/
theorem foldLog_append (s : Int) (lookup : Int × Nat → Option GameRow)
    (p : PlayerRow) (logs : List LogLine) :
    ∀ sc, ∃ t, logs.foldl (processLog s lookup p) sc = sc ++ t ∧
      ∀ r ∈ t, r.minutes = 0 := by
  induction logs with
  | nil => intro sc; exact ⟨[], by simp⟩
  | cons log rest ih =>
    intro sc
    rw [List.foldl_cons]
    obtain ⟨t1, ht1, hm1⟩ := processLog_append s lookup p sc log
    obtain ⟨t2, ht2, hm2⟩ := ih (processLog s lookup p sc log)
    refine ⟨t1 ++ t2, ?_, ?_⟩
    · rw [ht2, ht1, List.append_assoc]
    · intro r hr
      rcases List.mem_append.mp hr with hr | hr
      · exact hm1 r hr
      · exact hm2 r hr

/-- The outer fold of phase 2b over players only ever appends minutes-0
rows. -/
theorem foldPlayers_append (ext : Ext) (s : Int)
    (lookup : Int × Nat → Option GameRow) (ps : List PlayerRow) :
    ∀ sc, ∃ t,
      ps.foldl (fun sc p => (ext.logs p.nba_player_id).foldl
        (processLog s lookup p) sc) sc = sc ++ t ∧
      ∀ r ∈ t, r.minutes = 0 := by
  induction ps with
  | nil => intro sc; exact ⟨[], by simp⟩
  | cons p rest ih =>
    intro sc
    rw [List.foldl_cons]
    obtain ⟨t1, ht1, hm1⟩ := foldLog_append s lookup p (ext.logs p.nba_player_id) sc
    obtain ⟨t2, ht2, hm2⟩ := ih ((ext.logs p.nba_player_id).foldl (processLog s lookup p) sc)
    refine ⟨t1 ++ t2, ?_, ?_⟩
    · rw [ht2, ht1, List.append_assoc]
    · intro r hr
      rcases List.mem_append.mp hr with hr | hr
      · exact hm1 r hr
      · exact hm2 r hr

/-- Phase 2b only ever appends, and every appended row has minutes 0. -/
theorem fallbackPhase_append (ext : Ext) (s : Int) (players : List PlayerRow)
    (failed : List GameRow) (sc : List ScoreRow) :
    ∃ t, fallbackPhase ext s players failed sc = sc ++ t ∧
      ∀ r ∈ t, r.minutes = 0 := by
  unfold fallbackPhase
  by_cases hf : failed.isEmpty
  · exact ⟨[], by simp [hf]⟩
  · simp only [hf, Bool.false_eq_true, if_false]
    exact foldPlayers_append ext s (gameLookup failed) _ sc

/-- The whole backfill phase only ever appends score rows: stored rows are
never modified or removed. -/
theorem populate_append (ext : Ext) (s : Int) (db : Db) :
    ∃ t, (populate_ttfl_scores ext s db).scores = db.scores ++ t := by
  unfold populate_ttfl_scores
  obtain ⟨t1, ht1⟩ := boxPhase_append ext (playerMap db.players)
    (needingGames s db) db.scores
  obtain ⟨t2, ht2, -⟩ := fallbackPhase_append ext s db.players
    (boxPhase ext (playerMap db.players) (needingGames s db) db.scores).2
    (boxPhase ext (playerMap db.players) (needingGames s db) db.scores).1
  refine ⟨t1 ++ t2, ?_⟩
  dsimp only
  rw [ht2, ht1, List.append_assoc]

/-- What `game_lookup` returns matched a processed failed game's key, or
came from the initial map. -/
theorem gameLookup_go_some :
    ∀ (l : List GameRow) (m0 : Int × Nat → Option GameRow) (k : Int × Nat)
      (g : GameRow),
      l.foldl
        (fun m g => fun k =>
          if k = (g.game_date, g.home_team_id) ∨ k = (g.game_date, g.away_team_id)
          then some g else m k) m0 k = some g →
      (g ∈ l ∧ (k = (g.game_date, g.home_team_id) ∨
        k = (g.game_date, g.away_team_id))) ∨ m0 k = some g := by
  intro l
  induction l with
  | nil => intro m0 k g h; exact Or.inr h
  | cons hd rest ih =>
    intro m0 k g h
    rw [List.foldl_cons] at h
    rcases ih _ k g h with ⟨h1, h2⟩ | h1
    · exact Or.inl ⟨List.mem_cons_of_mem _ h1, h2⟩
    · by_cases hk : k = (hd.game_date, hd.home_team_id) ∨
          k = (hd.game_date, hd.away_team_id)
      · rw [if_pos hk] at h1
        obtain rfl := Option.some.inj h1
        exact Or.inl ⟨List.mem_cons_self _ _, hk⟩
      · rw [if_neg hk] at h1
        exact Or.inr h1

/-- The fold never erases an existing entry. -/
theorem gameLookup_go_pres :
    ∀ (l : List GameRow) (m0 : Int × Nat → Option GameRow) (k : Int × Nat),
      (∃ g0, m0 k = some g0) →
      ∃ g, l.foldl
        (fun m g => fun k =>
          if k = (g.game_date, g.home_team_id) ∨ k = (g.game_date, g.away_team_id)
          then some g else m k) m0 k = some g := by
  intro l
  induction l with
  | nil => intro m0 k h; exact h
  | cons hd rest ih =>
    intro m0 k h
    rw [List.foldl_cons]
    refine ih _ k ?_
    by_cases hk : k = (hd.game_date, hd.home_team_id) ∨
        k = (hd.game_date, hd.away_team_id)
    · exact ⟨hd, by rw [if_pos hk]⟩
    · obtain ⟨g0, hg0⟩ := h
      exact ⟨g0, by rw [if_neg hk]; exact hg0⟩

/-- A key carried by some failed game is present in `game_lookup`. -/
theorem gameLookup_go_mem :
    ∀ (l : List GameRow) (m0 : Int × Nat → Option GameRow) (k : Int × Nat)
      (g : GameRow), g ∈ l →
      (k = (g.game_date, g.home_team_id) ∨ k = (g.game_date, g.away_team_id)) →
      ∃ g2, l.foldl
        (fun m g => fun k =>
          if k = (g.game_date, g.home_team_id) ∨ k = (g.game_date, g.away_team_id)
          then some g else m k) m0 k = some g2 := by
  intro l
  induction l with
  | nil => simp
  | cons hd rest ih =>
    intro m0 k g hg hk
    rw [List.foldl_cons]
    rcases List.mem_cons.mp hg with rfl | hg
    · refine gameLookup_go_pres rest _ k ⟨g, ?_⟩
      rw [if_pos hk]
    · exact ih _ k g hg hk

/-- Membership in the collected team id list of the failed games. -/
theorem mem_teamIds :
    ∀ (l : List GameRow) (acc : List Nat) (x : Nat),
      x ∈ l.foldl (fun s g => s ++ [g.home_team_id, g.away_team_id]) acc ↔
        x ∈ acc ∨ ∃ g ∈ l, x = g.home_team_id ∨ x = g.away_team_id := by
  intro l
  induction l with
  | nil => simp
  | cons hd rest ih =>
    intro acc x
    rw [List.foldl_cons, ih]
    simp
    aesop

/-- Once a log entry matching a failed game has been folded in, the
(player, game) pair exists in the resulting score list. -/
theorem foldLog_guarantee (s : Int) (lookup : Int × Nat → Option GameRow)
    (p : PlayerRow) (logs : List LogLine) :
    ∀ (sc : List ScoreRow) (log : LogLine), log ∈ logs →
      ∀ (d : Int) (g : GameRow), log.game_date = some d → ¬(d < s) →
      lookup (d, p.team_id) = some g →
      pairExists (logs.foldl (processLog s lookup p) sc) p.id g.id = true := by
  induction logs with
  | nil => simp
  | cons hd rest ih =>
    intro sc log hlog d g hdate hds hl
    rw [List.foldl_cons]
    rcases List.mem_cons.mp hlog with rfl | hlog
    · have hstep : pairExists (processLog s lookup p sc log) p.id g.id = true := by
        unfold processLog
        rw [hdate]
        dsimp only
        rw [if_neg hds, hl]
        dsimp only
        by_cases hp : pairExists sc p.id g.id = true
        · rw [if_pos hp]
          exact hp
        · rw [if_neg hp]
          unfold pairExists
          rw [List.any_append]
          simp
      obtain ⟨t, ht, -⟩ := foldLog_append s lookup p rest (processLog s lookup p sc log)
      rw [ht]
      exact pairExists_append hstep
    · exact ih _ log hlog d g hdate hds hl

/-- Once a relevant player's matching log entry has been processed by the
outer fold of phase 2b, the pair exists. -/
theorem foldPlayers_guarantee (ext : Ext) (s : Int)
    (lookup : Int × Nat → Option GameRow) (ps : List PlayerRow) :
    ∀ (sc : List ScoreRow) (p : PlayerRow), p ∈ ps →
      ∀ log ∈ ext.logs p.nba_player_id,
      ∀ (d : Int) (g : GameRow), log.game_date = some d → ¬(d < s) →
      lookup (d, p.team_id) = some g →
      pairExists (ps.foldl (fun sc p => (ext.logs p.nba_player_id).foldl
        (processLog s lookup p) sc) sc) p.id g.id = true := by
  induction ps with
  | nil => simp
  | cons hd rest ih =>
    intro sc p hp log hlog d g hdate hds hl
    rw [List.foldl_cons]
    rcases List.mem_cons.mp hp with rfl | hp
    · have h1 := foldLog_guarantee s lookup p (ext.logs p.nba_player_id) sc log
        hlog d g hdate hds hl
      obtain ⟨t, ht, -⟩ := foldPlayers_append ext s lookup rest
        ((ext.logs p.nba_player_id).foldl (processLog s lookup p) sc)
      rw [ht]
      exact pairExists_append h1
    · exact ih _ p hp log hlog d g hdate hds hl

/-- Phase 2b guarantee: a relevant player's log entry that matches a failed
game in `game_lookup` leaves its pair in the output. -/
theorem fallback_guarantee (ext : Ext) (s : Int) (players : List PlayerRow)
    (failed : List GameRow) (sc : List ScoreRow)
    (hfe : failed.isEmpty = false) (p : PlayerRow) (hp : p ∈ players)
    (hteam : (failed.foldl (fun s g => s ++ [g.home_team_id, g.away_team_id])
      []).contains p.team_id = true)
    (hact : p.is_active = true) :
    ∀ log ∈ ext.logs p.nba_player_id,
    ∀ (d : Int) (g : GameRow), log.game_date = some d → ¬(d < s) →
    gameLookup failed (d, p.team_id) = some g →
    pairExists (fallbackPhase ext s players failed sc) p.id g.id = true := by
  intro log hlog d g hdate hds hl
  unfold fallbackPhase
  simp only [hfe, Bool.false_eq_true, if_false]
  refine foldPlayers_guarantee ext s (gameLookup failed) _ sc p ?_ log hlog d g
    hdate hds hl
  rw [List.mem_filter]
  exact ⟨hp, by rw [hteam, hact]; rfl⟩

/-- A fold of box lines whose players are all unknown (or have the falsy
id 0) changes nothing. -/
theorem foldBox_noop (pmap : Nat → Option Nat) (gid : Nat)
    (lines : List BoxLine)
    (h : ∀ line ∈ lines, pmap line.nba_player_id = none ∨
      pmap line.nba_player_id = some 0) :
    ∀ sc, lines.foldl (processBoxLine pmap gid) sc = sc := by
  induction lines with
  | nil => intro sc; rfl
  | cons line rest ih =>
    intro sc
    rw [List.foldl_cons]
    have hstep : processBoxLine pmap gid sc line = sc := by
      unfold processBoxLine
      rcases h line (List.mem_cons_self _ _) with hl | hl
      · rw [hl]
      · rw [hl]
        simp
    rw [hstep]
    exact ih (fun l hl => h l (List.mem_cons_of_mem _ hl)) sc

/-- When no processed game has a usable box line, phase 2a changes no
scores and queues exactly the games with empty box data. -/
theorem boxPhase_noop (ext : Ext) (pmap : Nat → Option Nat) :
    ∀ (gs : List GameRow) (sc : List ScoreRow),
      (∀ g ∈ gs, (ext.box g.nba_game_id).isEmpty = false →
        ∀ line ∈ ext.box g.nba_game_id, pmap line.nba_player_id = none ∨
          pmap line.nba_player_id = some 0) →
      boxPhase ext pmap gs sc
        = (sc, gs.filter (fun g => (ext.box g.nba_game_id).isEmpty)) := by
  intro gs
  induction gs with
  | nil => intro sc h; rfl
  | cons hd rest ih =>
    intro sc h
    rw [boxPhase, List.filter_cons]
    by_cases hb : (ext.box hd.nba_game_id).isEmpty
    · simp only [hb, if_true]
      rw [ih sc (fun g hg => h g (List.mem_cons_of_mem _ hg))]
    · simp only [hb, Bool.false_eq_true, if_false]
      rw [foldBox_noop pmap hd.id (ext.box hd.nba_game_id)
        (h hd (List.mem_cons_self _ _) (by simpa using hb)) sc]
      exact ih sc (fun g hg => h g (List.mem_cons_of_mem _ hg))

/-- A log entry with no parsable date, a pre-season date, or no matching
failed game changes nothing. -/
theorem processLog_noop (s : Int) (lookup : Int × Nat → Option GameRow)
    (p : PlayerRow) (log : LogLine)
    (h : log.game_date = none ∨ ∃ d, log.game_date = some d ∧
      (d < s ∨ lookup (d, p.team_id) = none)) :
    ∀ sc, processLog s lookup p sc log = sc := by
  intro sc
  unfold processLog
  rcases h with h | ⟨d, hd, hcase⟩
  · rw [h]
  · rw [hd]
    dsimp only
    rcases hcase with hds | hlk
    · rw [if_pos hds]
    · by_cases hds : d < s
      · rw [if_pos hds]
      · rw [if_neg hds, hlk]

/-- A fold of log entries that all hit a skip branch changes nothing. -/
theorem foldLog_noop (s : Int) (lookup : Int × Nat → Option GameRow)
    (p : PlayerRow) (logs : List LogLine)
    (h : ∀ log ∈ logs, log.game_date = none ∨ ∃ d, log.game_date = some d ∧
      (d < s ∨ lookup (d, p.team_id) = none)) :
    ∀ sc, logs.foldl (processLog s lookup p) sc = sc := by
  induction logs with
  | nil => intro sc; rfl
  | cons log rest ih =>
    intro sc
    rw [List.foldl_cons, processLog_noop s lookup p log
      (h log (List.mem_cons_self _ _)) sc]
    exact ih (fun l hl => h l (List.mem_cons_of_mem _ hl)) sc

/-- An outer player fold whose log entries all hit skip branches changes
nothing. -/
theorem foldPlayers_noop (ext : Ext) (s : Int)
    (lookup : Int × Nat → Option GameRow) (ps : List PlayerRow)
    (h : ∀ p ∈ ps, ∀ log ∈ ext.logs p.nba_player_id,
      log.game_date = none ∨ ∃ d, log.game_date = some d ∧
        (d < s ∨ lookup (d, p.team_id) = none)) :
    ∀ sc, ps.foldl (fun sc p => (ext.logs p.nba_player_id).foldl
      (processLog s lookup p) sc) sc = sc := by
  induction ps with
  | nil => intro sc; rfl
  | cons p rest ih =>
    intro sc
    rw [List.foldl_cons, foldLog_noop s lookup p (ext.logs p.nba_player_id)
      (h p (List.mem_cons_self _ _)) sc]
    exact ih (fun q hq => h q (List.mem_cons_of_mem _ hq)) sc

/-- Phase 2b changes nothing when every relevant player's log entries all
hit skip branches. -/
theorem fallback_noop (ext : Ext) (s : Int) (players : List PlayerRow)
    (failed : List GameRow) (sc : List ScoreRow)
    (h : ∀ p ∈ players,
      ((failed.foldl (fun s g => s ++ [g.home_team_id, g.away_team_id])
        []).contains p.team_id && p.is_active) = true →
      ∀ log ∈ ext.logs p.nba_player_id,
        log.game_date = none ∨ ∃ d, log.game_date = some d ∧
          (d < s ∨ gameLookup failed (d, p.team_id) = none)) :
    fallbackPhase ext s players failed sc = sc := by
  unfold fallbackPhase
  by_cases hf : failed.isEmpty
  · rw [if_pos hf]
  · rw [if_neg hf]
    refine foldPlayers_noop ext s (gameLookup failed) _ ?_ sc
    intro p hp
    rw [List.mem_filter] at hp
    exact h p hp.1 hp.2

/-- C4 (amended): the backfill phase never modifies or removes a stored
score row (it only appends), and — provided no two stored games share a
(date, team) key — running it a second time over the same external data
and the resulting stored state inserts zero new rows. -/
theorem C4_backfill_idempotent (ext : Ext) (s : Int) (db : Db)
    (hnd : NoDupTeamDate db.games) :
    (∃ t, (populate_ttfl_scores ext s db).scores = db.scores ++ t) ∧
    populate_ttfl_scores ext s (populate_ttfl_scores ext s db)
      = populate_ttfl_scores ext s db := by
  refine ⟨populate_append ext s db, ?_⟩
  set db1 := populate_ttfl_scores ext s db with hdb1
  have hpl : db1.players = db.players := rfl
  have hgm : db1.games = db.games := rfl
  have hs1 : db1.scores = fallbackPhase ext s db.players
      (boxPhase ext (playerMap db.players) (needingGames s db) db.scores).2
      (boxPhase ext (playerMap db.players) (needingGames s db) db.scores).1 := rfl
  -- every game the second run would process was processed by the first run
  -- and still has no score row after it
  have hneed2 : ∀ g ∈ needingGames s db1,
      g ∈ needingGames s db ∧ hasScoreFor db1.scores g.id = false := by
    intro g hg
    have h2 := mem_needingGames.mp hg
    refine ⟨mem_needingGames.mpr ⟨hgm ▸ h2.1, h2.2.1, h2.2.2.1, ?_⟩, h2.2.2.2⟩
    cases hx : hasScoreFor db.scores g.id with
    | false => rfl
    | true =>
      exfalso
      obtain ⟨t, ht⟩ := populate_append ext s db
      have h3 : hasScoreFor db1.scores g.id = true := by
        rw [hdb1, ht]
        exact hasScoreFor_append hx
      rw [h3] at h2
      simp at h2
  -- second-run box phase: every line of a processed game is unusable
  have hboxpre : ∀ g ∈ needingGames s db1,
      (ext.box g.nba_game_id).isEmpty = false →
      ∀ line ∈ ext.box g.nba_game_id,
        playerMap db1.players line.nba_player_id = none ∨
        playerMap db1.players line.nba_player_id = some 0 := by
    intro g hg hbne line hline
    cases hpm : playerMap db1.players line.nba_player_id with
    | none => exact Or.inl rfl
    | some pid =>
      by_cases h0 : pid = 0
      · exact Or.inr (by rw [h0])
      · exfalso
        obtain ⟨hg1, hS⟩ := hneed2 g hg
        rw [hpl] at hpm
        have hpair := boxPhase_guarantee ext (playerMap db.players)
          (needingGames s db) db.scores g hg1 hbne line hline pid hpm h0
        obtain ⟨t2, ht2, -⟩ := fallbackPhase_append ext s db.players
          (boxPhase ext (playerMap db.players) (needingGames s db) db.scores).2
          (boxPhase ext (playerMap db.players) (needingGames s db) db.scores).1
        have h3 : hasScoreFor db1.scores g.id = true := by
          rw [hs1, ht2]
          exact hasScoreFor_append (pairExists_hasScore hpair)
        rw [h3] at hS
        simp at hS
  have hbox2 := boxPhase_noop ext (playerMap db1.players) (needingGames s db1)
    db1.scores hboxpre
  -- second-run fallback phase: every log entry hits a skip branch
  have hfbpre : ∀ p ∈ db1.players,
      ((((needingGames s db1).filter (fun g => (ext.box g.nba_game_id).isEmpty)).foldl
        (fun s g => s ++ [g.home_team_id, g.away_team_id]) []).contains p.team_id
        && p.is_active) = true →
      ∀ log ∈ ext.logs p.nba_player_id,
        log.game_date = none ∨ ∃ d, log.game_date = some d ∧
          (d < s ∨ gameLookup ((needingGames s db1).filter
            (fun g => (ext.box g.nba_game_id).isEmpty)) (d, p.team_id) = none) := by
    intro p hp hcond log hlog
    cases hdate : log.game_date with
    | none => exact Or.inl rfl
    | some d =>
      refine Or.inr ⟨d, rfl, ?_⟩
      by_cases hds : d < s
      · exact Or.inl hds
      · refine Or.inr ?_
        cases hlk : gameLookup ((needingGames s db1).filter
            (fun g => (ext.box g.nba_game_id).isEmpty)) (d, p.team_id) with
        | none => rfl
        | some g =>
          exfalso
          rcases gameLookup_go_some _ _ _ _ hlk with ⟨hgf2, hkey⟩ | habs
          swap
          · simp at habs
          have hmem2 := List.mem_filter.mp hgf2
          obtain ⟨hg1, hSg⟩ := hneed2 g hmem2.1
          have hgf1 : g ∈ (boxPhase ext (playerMap db.players)
              (needingGames s db) db.scores).2 :=
            (boxPhase_failed ext (playerMap db.players) (needingGames s db)
              db.scores g).mpr ⟨hg1, hmem2.2⟩
          have hfe1 : (boxPhase ext (playerMap db.players) (needingGames s db)
              db.scores).2.isEmpty = false := by
            rw [Bool.eq_false_iff]
            rw [Ne, List.isEmpty_iff]
            exact List.ne_nil_of_mem hgf1
          have hdg : g.game_date = d ∧
              (g.home_team_id = p.team_id ∨ g.away_team_id = p.team_id) := by
            rcases hkey with hk | hk
            · rw [Prod.ext_iff] at hk
              exact ⟨hk.1.symm, Or.inl hk.2.symm⟩
            · rw [Prod.ext_iff] at hk
              exact ⟨hk.1.symm, Or.inr hk.2.symm⟩
          have hact : p.is_active = true := by
            have h := hcond
            simp at h
            exact h.2
          have hteam1 : (((boxPhase ext (playerMap db.players) (needingGames s db)
              db.scores).2).foldl
              (fun s g => s ++ [g.home_team_id, g.away_team_id]) []).contains
              p.team_id = true := by
            have hmem : p.team_id ∈ ((boxPhase ext (playerMap db.players)
                (needingGames s db) db.scores).2).foldl
                (fun s g => s ++ [g.home_team_id, g.away_team_id]) [] := by
              refine (mem_teamIds _ [] p.team_id).mpr (Or.inr ⟨g, hgf1, ?_⟩)
              rcases hdg.2 with h | h
              · exact Or.inl h.symm
              · exact Or.inr h.symm
            simpa using hmem
          obtain ⟨g2, hg2⟩ := gameLookup_go_mem
            (boxPhase ext (playerMap db.players) (needingGames s db) db.scores).2
            (fun _ => none) (d, p.team_id) g hgf1 hkey
          rcases gameLookup_go_some _ _ _ _ hg2 with ⟨hg2f, hkey2⟩ | habs2
          swap
          · simp at habs2
          have hg2need1 := ((boxPhase_failed ext (playerMap db.players)
            (needingGames s db) db.scores g2).mp hg2f).1
          have hgdb : g ∈ db.games := (mem_needingGames.mp hg1).1
          have hg2db : g2 ∈ db.games := (mem_needingGames.mp hg2need1).1
          have hdg2 : g2.game_date = d ∧
              (g2.home_team_id = p.team_id ∨ g2.away_team_id = p.team_id) := by
            rcases hkey2 with hk | hk
            · rw [Prod.ext_iff] at hk
              exact ⟨hk.1.symm, Or.inl hk.2.symm⟩
            · rw [Prod.ext_iff] at hk
              exact ⟨hk.1.symm, Or.inr hk.2.symm⟩
          have hgg2 : g = g2 :=
            hnd g hgdb g2 hg2db (by rw [hdg.1, hdg2.1]) p.team_id hdg.2 hdg2.2
          rw [hpl] at hp
          have hlk1 : gameLookup (boxPhase ext (playerMap db.players)
              (needingGames s db) db.scores).2 (d, p.team_id) = some g2 := hg2
          have hpair := fallback_guarantee ext s db.players
            (boxPhase ext (playerMap db.players) (needingGames s db) db.scores).2
            (boxPhase ext (playerMap db.players) (needingGames s db) db.scores).1
            hfe1 p hp hteam1 hact log hlog d g2 hdate hds hlk1
          have hS : hasScoreFor db1.scores g2.id = true := by
            rw [hs1]
            exact pairExists_hasScore hpair
          rw [← hgg2] at hS
          rw [hS] at hSg
          simp at hSg
  have hfb2 := fallback_noop ext s db1.players
    ((needingGames s db1).filter (fun g => (ext.box g.nba_game_id).isEmpty))
    db1.scores hfbpre
  have hscore2 : (populate_ttfl_scores ext s db1).scores = db1.scores := by
    show fallbackPhase ext s db1.players
        (boxPhase ext (playerMap db1.players) (needingGames s db1) db1.scores).2
        (boxPhase ext (playerMap db1.players) (needingGames s db1) db1.scores).1
      = db1.scores
    rw [hbox2]
    exact hfb2
  have hrun2 : populate_ttfl_scores ext s db1
      = { db1 with scores := (populate_ttfl_scores ext s db1).scores } := rfl
  rw [hrun2, hscore2]

/-- C4 witness: the amended theorem applied to the two-games-one-player
scenario restricted to a duplicate-free schedule (just the first game). -/
theorem C4_backfill_idempotent_witness :
    populate_ttfl_scores cexExt 0
        (populate_ttfl_scores cexExt 0 ⟨[cexPlayer], [cexGame1], []⟩)
      = populate_ttfl_scores cexExt 0 ⟨[cexPlayer], [cexGame1], []⟩ :=
  (C4_backfill_idempotent cexExt 0 ⟨[cexPlayer], [cexGame1], []⟩ (by
    intro g hg g2 hg2 _ t _ _
    rw [List.mem_singleton] at hg hg2
    rw [hg, hg2])).2

/-- C4 counterexample: with two score-less final games sharing day 50 and
team 7 and box scores unavailable, the first run inserts one fallback row
(for the later game, which overwrote the `game_lookup` key) and the second
run inserts another one for the other game — the second run is not a
no-op. -/
theorem C4_backfill_idempotent_cex :
    (populate_ttfl_scores cexExt 0 cexDb).scores.length = 1 ∧
    (populate_ttfl_scores cexExt 0 (populate_ttfl_scores cexExt 0 cexDb)).scores.length
      = 2 :=
  ⟨by decide, by decide⟩

/-- C10: every score row the player-log fallback path inserts stores
minutes 0, and a minutes-0 row never contributes to any of the three
rolling averages — the batch query admits only rows with minutes strictly
greater than 0. -/
theorem C10_fallback_minutes_zero :
    (∀ (ext : Ext) (seasonStart : Int) (players : List PlayerRow)
        (failed : List GameRow) (scores : List ScoreRow),
      ∃ t, fallbackPhase ext seasonStart players failed scores = scores ++ t ∧
        ∀ r ∈ t, r.minutes = 0) ∧
    (∀ (today : Int) (ids : List Nat) (t1 t2 : List SJRow) (r : SJRow),
      r.minutes = 0 →
      batch_calculate_averages today (t1 ++ r :: t2) ids
        = batch_calculate_averages today (t1 ++ t2) ids) := by
  refine ⟨fallbackPhase_append, ?_⟩
  intro today ids t1 t2 r h
  apply batch_drop_row
  simp [queryKeep, h]

/-- C10 witness: a minutes-0 score row is invisible to the batch
averages. -/
theorem C10_fallback_minutes_zero_witness :
    batch_calculate_averages 100 ([] ++ (⟨1, some 5, 0, 50⟩ : SJRow) :: []) [1]
      = batch_calculate_averages 100 ([] ++ []) [1] :=
  C10_fallback_minutes_zero.2 100 [1] [] [] ⟨1, some 5, 0, 50⟩ rfl

end TTFL
